import Mathlib

/-!
Verification development for the Pyramid IRC relay server.

The definitions below are shallow embeddings of the JavaScript source:
pure functions become Lean functions, the module-level mutable caches of
the cache module become an explicit `CachesState` record threaded through
the operations, machine-generated uuids become a counter carried in the
state, and external collaborators (database, socket emission) are either
dropped (when they do not feed back into the in-memory state) or recorded
as explicit action lists.
-/

namespace Pyramid

/-! ## Cache engine (`cacheItem` and friends, cache module) -/

/-- Embedding of `cacheItem` from the cache module: push `data` to the
tail; when the length exceeds the capacity by exactly one, shift the head
off; when it exceeds by more, slice down to the most recent `cap`
entries. -/
def cacheItem {α : Type} (cap : Nat) (cache : List α) (data : α) : List α :=
  let c := cache ++ [data]
  if c.length > cap then
    if c.length = cap + 1 then c.tail
    else c.drop (c.length - cap)
  else c

/-- Embedding of `getCacheLinesSetting`: a config value parsed as an
integer is used when it lies in `[20, 500]`; otherwise the default
`CACHE_LINES` applies.  The `constants` module is not part of the
sources; its default of 150 is taken from the defaults file
(`cacheLines: 150`). -/
def getCacheLinesSetting (valueFromConfig : Option Int) : Nat :=
  match valueFromConfig with
  | some v => if 20 ≤ v ∧ v ≤ 500 then v.toNat else 150
  | none => 150

/-! ## Data model of the cache module -/

/-- Relationship tiers, as in the irc module: none, friend, best friend. -/
def RELATIONSHIP_NONE : Nat := 0

/-- Tier of a user on the friends list. -/
def RELATIONSHIP_FRIEND : Nat := 1

/-- Tier of a user on the best-friends list. -/
def RELATIONSHIP_BEST_FRIEND : Nat := 2

/-- The fields of a plain channel event record that the cache module
reads (further payload fields such as `reason` or `mode` never influence
the caches).  Line ids are modelled as naturals standing in for the
generated uuids. -/
structure EventData where
  type : String
  channel : String
  server : String
  username : String
  time : Nat
  lineId : Nat
deriving DecidableEq, Repr

/-- A chat message record as built by `cacheMessage`. -/
structure MsgData where
  channel : String
  color : Nat
  highlight : List String
  lineId : Nat
  message : String
  relationship : Nat
  server : String
  symbol : String
  tags : List (String × String)
  time : Nat
  type : String
  username : String
deriving DecidableEq, Repr

/-- One entry of a channel cache: a plain event, a message, or an
"events" bunch.  A bunch carries its member records, so the type is
recursive; the constructor fields appear in the order of the JS object
literal (`channel, events, firstTime, joinCount, lineId, partCount,
prevIds, server, time`). -/
inductive CacheLine where
  | ev : EventData → CacheLine
  | msgLine : MsgData → CacheLine
  | bunch : (channel : String) → (events : List CacheLine) →
      (firstTime : Nat) → (joinCount : Nat) → (lineId : Nat) →
      (partCount : Nat) → (prevIds : List Nat) → (server : String) →
      (time : Nat) → CacheLine

/-- The `type` property of a cache line (bunches carry `"events"`). -/
def CacheLine.type : CacheLine → String
  | .ev e => e.type
  | .msgLine m => m.type
  | .bunch _ _ _ _ _ _ _ _ _ => "events"

/-- The `lineId` property of a cache line. -/
def CacheLine.lineId : CacheLine → Nat
  | .ev e => e.lineId
  | .msgLine m => m.lineId
  | .bunch _ _ _ _ lineId _ _ _ _ => lineId

/-- The `channel` property of a cache line. -/
def CacheLine.channel : CacheLine → String
  | .ev e => e.channel
  | .msgLine m => m.channel
  | .bunch channel _ _ _ _ _ _ _ _ => channel

/-- The `server` property of a cache line. -/
def CacheLine.server : CacheLine → String
  | .ev e => e.server
  | .msgLine m => m.server
  | .bunch _ _ _ _ _ _ _ server _ => server

/-- The `time` property of a cache line. -/
def CacheLine.time : CacheLine → Nat
  | .ev e => e.time
  | .msgLine m => m.time
  | .bunch _ _ _ _ _ _ _ _ time => time

/-- The `events` member list: only bunches have one (`undefined`,
modelled as `[]`, elsewhere). -/
def CacheLine.events : CacheLine → List CacheLine
  | .bunch _ events _ _ _ _ _ _ _ => events
  | _ => []

/-- The `firstTime` property: only bunches have one. -/
def CacheLine.firstTime : CacheLine → Nat
  | .bunch _ _ firstTime _ _ _ _ _ _ => firstTime
  | _ => 0

/-- The `joinCount` property: only bunches have one. -/
def CacheLine.joinCount : CacheLine → Nat
  | .bunch _ _ _ joinCount _ _ _ _ _ => joinCount
  | _ => 0

/-- The `partCount` property: only bunches have one. -/
def CacheLine.partCount : CacheLine → Nat
  | .bunch _ _ _ _ _ partCount _ _ _ => partCount
  | _ => 0

/-- The `prevIds` property: only bunches have one (`undefined`, modelled
as `[]`, elsewhere — the JS code guards every access with a truthiness
check). -/
def CacheLine.prevIds : CacheLine → List Nat
  | .bunch _ _ _ _ _ _ prevIds _ _ => prevIds
  | _ => []

/-- An entry of a category or user cache: the message plus — for
highlight entries — the context message list attached by `cacheMessage`
(`highlightMsg.contextMessages`).  Plain entries never have the field
read, so it is modelled as `[]` for them. -/
structure CatMsg where
  msg : MsgData
  contextMessages : List CacheLine

/-- Modelled from the spec: `BUNCHABLE_EVENT_TYPES` lives in the missing
`constants` module; per §4.6 the low-signal kinds are join, part, quit,
kick, mode and kill. -/
def BUNCHABLE_EVENT_TYPES : List String :=
  ["join", "part", "quit", "kick", "mode", "kill"]

/-- Modelled from the spec: `eventUtils.isJoinEvent` from the missing
`util/events` module recognises join records. -/
def isJoinEvent (data : CacheLine) : Bool :=
  data.type == "join"

/-- Modelled from the spec: `eventUtils.isPartEvent` from the missing
`util/events` module recognises part records. -/
def isPartEvent (data : CacheLine) : Bool :=
  data.type == "part"

/-- The configuration the cache module reads: the validated
`cacheLines` capacity, and — modelled from the spec, since the
`constants` module is missing — the bunch member cap
`BUNCHED_EVENT_SIZE`, the highlight context window size
`CONTEXT_CACHE_LINES`, and the `logLinesDb` switch. -/
structure CacheConfig where
  cacheLines : Nat
  bunchedEventSize : Nat
  contextCacheLines : Nat
  logLinesDb : Bool
deriving DecidableEq, Repr

/-- The module-level mutable state of the cache module.  The string-keyed
JS objects become functions into `Option`, missing keys being `none`;
`bunchableLinesToInsert` is the pending-insert map keyed by line id;
`lineIdsToDelete` is the pending-delete set; `uuidCounter` models the
uuid generator (uuids are never falsy, so the counter starts at 1). -/
structure CachesState where
  channelCaches : String → Option (List CacheLine)
  userCaches : String → Option (List MsgData)
  categoryCaches : String → Option (List CatMsg)
  currentHighlightContexts : String → Option (List CatMsg)
  bunchableLinesToInsert : List (Nat × String × CacheLine)
  lineIdsToDelete : List Nat
  unseenHighlightIds : List Nat
  uuidCounter : Nat

/-- Pointwise update of a string-keyed map. -/
def updateMap {β : Type} (m : String → Option β) (k : String) (v : β) :
    String → Option β :=
  fun x => if x = k then some v else m x

/-- The state at module load: empty caches (the category object starts
with its three fixed keys), empty pending queues, fresh uuid counter. -/
def initialCachesState : CachesState where
  channelCaches := fun _ => none
  userCaches := fun _ => none
  categoryCaches := fun c =>
    if c = "highlights" ∨ c = "allfriends" ∨ c = "system" then some [] else none
  currentHighlightContexts := fun _ => none
  bunchableLinesToInsert := []
  lineIdsToDelete := []
  unseenHighlightIds := []
  uuidCounter := 1

/-! ## Cache module operations -/

/-- Embedding of `cacheChannelEvent`: append through `cacheItem` into the
channel's cache (created on demand).  The database write (`storeLine`)
and the socket emission only talk to external collaborators and do not
feed back into this state. -/
def cacheChannelEvent (cfg : CacheConfig) (st : CachesState)
    (channel : String) (data : CacheLine) : CachesState :=
  let cache := (st.channelCaches channel).getD []
  { st with channelCaches :=
      updateMap st.channelCaches channel (cacheItem cfg.cacheLines cache data) }

/-- Embedding of `cacheUserMessage`: append through `cacheItem` into the
user's cache (created on demand); the recipient emission is external. -/
def cacheUserMessage (cfg : CacheConfig) (st : CachesState)
    (username : String) (msg : MsgData) : CachesState :=
  let cache := (st.userCaches username).getD []
  { st with userCaches :=
      updateMap st.userCaches username (cacheItem cfg.cacheLines cache msg) }

/-- Embedding of `createCurrentHighlightContext`: push the highlight
message onto the channel's open-context list (created on demand). -/
def createCurrentHighlightContext (st : CachesState) (channel : String)
    (highlightMsg : CatMsg) : CachesState :=
  let contexts := (st.currentHighlightContexts channel).getD []
  { st with currentHighlightContexts :=
      updateMap st.currentHighlightContexts channel (contexts ++ [highlightMsg]) }

/-- Embedding of `cacheCategoryMessage`: append through `cacheItem`; for
the `"highlights"` category (the line id, a uuid, is always truthy) the
id also enters the unseen-highlight set and a new highlight context is
opened on the message's channel.  Emissions are external. -/
def cacheCategoryMessage (cfg : CacheConfig) (st : CachesState)
    (categoryName : String) (msg : CatMsg) : CachesState :=
  let cache := (st.categoryCaches categoryName).getD []
  let st :=
    { st with categoryCaches :=
        updateMap st.categoryCaches categoryName (cacheItem cfg.cacheLines cache msg) }
  if categoryName = "highlights" ∧ msg.msg.lineId ≠ 0 then
    let unseen :=
      if st.unseenHighlightIds.contains msg.msg.lineId then st.unseenHighlightIds
      else st.unseenHighlightIds ++ [msg.msg.lineId]
    let st := { st with unseenHighlightIds := unseen }
    createCurrentHighlightContext st msg.msg.channel msg
  else st

/-- The loop body of `addToCurrentHighlightContext`: push a record onto
one open context's message list (`list.push(msg)`). -/
def pushContextMessage (line : CacheLine) (h : CatMsg) : CatMsg :=
  { h with contextMessages := h.contextMessages ++ [line] }

/-- Embedding of `addToCurrentHighlightContext`: when the channel has a
non-empty open-context list, push `msg` onto every open context and keep
only the contexts still shorter than `2 * CONTEXT_CACHE_LINES`.  The JS
code mutates the shared context objects in place; the very same objects
sit in the `"highlights"` category cache, so the push is mirrored there,
keyed by the (unique) line id. -/
def addToCurrentHighlightContext (cfg : CacheConfig) (st : CachesState)
    (channel : String) (msg : CacheLine) : CachesState :=
  -- `highlights && highlights.length`: a missing list and an empty one
  -- both leave the state untouched
  let highlights := (st.currentHighlightContexts channel).getD []
  if highlights.isEmpty then st
  else
      let updated := highlights.map (pushContextMessage msg)
      let survivingHighlights := updated.filter
        (fun h => h.contextMessages.length < 2 * cfg.contextCacheLines)
      let newHighlightsCache := ((st.categoryCaches "highlights").getD []).map
        (fun h =>
          if highlights.any (fun g => g.msg.lineId == h.msg.lineId) then
            pushContextMessage msg h
          else h)
      { st with
          currentHighlightContexts :=
            (updateMap st.currentHighlightContexts channel survivingHighlights),
          categoryCaches :=
            (updateMap st.categoryCaches "highlights" newHighlightsCache) }

/-- Embedding of `storeBunchableLine`: queue the line for the batched
database insert, keyed by line id (uuids are always truthy; ids are
modelled as positive, so the truthiness test is `≠ 0`). -/
def storeBunchableLine (cfg : CacheConfig) (st : CachesState)
    (channel : String) (data : CacheLine) : CachesState :=
  if cfg.logLinesDb ∧ data.lineId ≠ 0 then
    let queue :=
      (st.bunchableLinesToInsert.filter (fun e => e.1 ≠ data.lineId))
        ++ [(data.lineId, channel, data)]
    { st with bunchableLinesToInsert := queue }
  else st

/-- Embedding of `deleteLinesWithLineIds`: record every id in the
pending-delete set and drop it from the pending-insert map. -/
def deleteLinesWithLineIds (st : CachesState) (lineIds : List Nat) :
    CachesState :=
  lineIds.foldl
    (fun st lineId =>
      let toDelete :=
        if st.lineIdsToDelete.contains lineId then st.lineIdsToDelete
        else st.lineIdsToDelete ++ [lineId]
      let toInsert := st.bunchableLinesToInsert.filter (fun e => e.1 ≠ lineId)
      { st with lineIdsToDelete := toDelete, bunchableLinesToInsert := toInsert })
    st

/-- Embedding of `replaceLastCacheItem`: overwrite the last entry of the
channel's cache when it has one, queue the replacement for the batched
database insert, and queue the superseded ids for deletion. -/
def replaceLastCacheItem (cfg : CacheConfig) (st : CachesState)
    (channel : String) (data : CacheLine) : CachesState :=
  -- `cache && cache.length`: a missing cache and an empty one are
  -- indistinguishable here, so the lookup defaults to `[]`
  let cache := (st.channelCaches channel).getD []
  let st :=
    if cache.length ≠ 0 then
      let replaced := cache.set (cache.length - 1) data
      { st with channelCaches := updateMap st.channelCaches channel replaced }
    else st
  let st := storeBunchableLine cfg st channel data
  if data.prevIds ≠ [] then deleteLinesWithLineIds st data.prevIds else st

/-- Embedding of `cacheBunchableChannelEvent`: inspect the tail of the
channel's cache; a bunchable tail is replaced by a fresh two-member
bunch, an `"events"` tail is replaced by a fresh bunch extending it with
member list and `prevIds` capped at `BUNCHED_EVENT_SIZE`; otherwise the
event is appended normally.  The fresh bunch consumes one uuid. -/
def cacheBunchableChannelEvent (cfg : CacheConfig) (st : CachesState)
    (channel : String) (data : CacheLine) : CachesState :=
  -- `cache && cache.length` again defaults a missing cache to `[]`; the
  -- tail `cache[cache.length-1]` exists exactly when the cache is
  -- non-empty, so both guards collapse into the `getLast?` match
  match ((st.channelCaches channel).getD []).getLast? with
  | none => cacheChannelEvent cfg st channel data
  | some lastItem =>
      let isJoin := isJoinEvent data
      let isPart := isPartEvent data
      let bunch? : Option CacheLine :=
        if BUNCHABLE_EVENT_TYPES.contains lastItem.type then
          some (CacheLine.bunch lastItem.channel [lastItem, data]
            lastItem.time (isJoin.toNat + (isJoinEvent lastItem).toNat)
            st.uuidCounter (isPart.toNat + (isPartEvent lastItem).toNat)
            [lastItem.lineId] lastItem.server data.time)
        else if lastItem.type = "events" then
          let maxLines := cfg.bunchedEventSize
          let prevIds0 := lastItem.prevIds ++ [lastItem.lineId]
          let prevIds :=
            if prevIds0.length > maxLines then
              prevIds0.drop (prevIds0.length - maxLines)
            else prevIds0
          let events0 := lastItem.events ++ [data]
          let events :=
            if events0.length > maxLines then
              events0.drop (events0.length - maxLines)
            else events0
          some (CacheLine.bunch lastItem.channel events lastItem.firstTime
            (lastItem.joinCount + isJoin.toNat) st.uuidCounter
            (lastItem.partCount + isPart.toNat) prevIds lastItem.server
            data.time)
        else none
      match bunch? with
      | some b =>
        replaceLastCacheItem cfg { st with uuidCounter := st.uuidCounter + 1 }
          channel b
      | none => cacheChannelEvent cfg st channel data

/-- The context slice `cacheMessage` records for a highlight: the most
recent `CONTEXT_CACHE_LINES` entries of the channel cache
(`currentCache.slice(max(0, length - N), length)`). -/
def contextSeed (cfg : CacheConfig) (st : CachesState) (channelUri : String) :
    List CacheLine :=
  ((st.channelCaches channelUri).getD []).drop
    (((st.channelCaches channelUri).getD []).length - cfg.contextCacheLines)

/-- The message record `cacheMessage` assembles (its line id is the
next uuid). -/
def builtMsg (colorOf : String → Nat) (st : CachesState)
    (channelUri serverName username symbol : String) (time : Nat)
    (type message : String) (tags : List (String × String))
    (relationship : Nat) (highlightStrings : List String) : MsgData :=
  { channel := channelUri
    color := colorOf username
    highlight := highlightStrings
    lineId := st.uuidCounter
    message := message
    relationship := relationship
    server := serverName
    symbol := symbol
    tags := tags
    time := time
    type := type
    username := username }

/-- Embedding of `cacheMessage` (with the `customCols = null` default):
build the message record with a fresh uuid; when it is a highlight,
shallow-clone it and attach the most recent `CONTEXT_CACHE_LINES`
channel records as its context; cache it in the channel cache, feed it
to the open highlight contexts, mirror it to the user and `"allfriends"`
caches when the author's tier is at least friend, and finally cache the
highlight clone in the `"highlights"` category. -/
def cacheMessage (cfg : CacheConfig) (colorOf : String → Nat)
    (st : CachesState) (channelUri serverName username symbol : String)
    (time : Nat) (type message : String) (tags : List (String × String))
    (relationship : Nat) (highlightStrings : List String) : CachesState :=
  let msg : MsgData := builtMsg colorOf st channelUri serverName username
    symbol time type message tags relationship highlightStrings
  let isHighlight := ¬ highlightStrings.isEmpty
  -- the context slice is taken from the channel cache as it is before
  -- the new message is cached below (the uuid-counter bump that models
  -- `uuid.v4()` does not touch the caches)
  let highlightMsg : CatMsg :=
    { msg := msg, contextMessages := contextSeed cfg st channelUri }
  let st := { st with uuidCounter := st.uuidCounter + 1 }
  let st := cacheChannelEvent cfg st channelUri (.msgLine msg)
  let st := addToCurrentHighlightContext cfg st channelUri (.msgLine msg)
  let st :=
    if RELATIONSHIP_FRIEND ≤ relationship then
      cacheCategoryMessage cfg (cacheUserMessage cfg st username msg)
        "allfriends" { msg := msg, contextMessages := [] }
    else st
  if isHighlight then cacheCategoryMessage cfg st "highlights" highlightMsg
  else st


/-! ## IRC server module (`server/irc.js`) -/

/-- The configuration data of one connected client that
`calibrateMultiServerChannels` reads: the identifying server name from
its config section and its channel list (`client.opt.channels`). -/
structure IrcClientConf where
  name : String
  channels : List String
deriving DecidableEq, Repr

/-- The loop body of `calibrateMultiServerChannels`: the accumulator is
(`multiServerChannels`, `namesSeen`); a channel already seen is pushed
onto the multi-server list, and every channel is recorded as seen. -/
def calibrateStep (acc : List String × List String) (ch : String) :
    List String × List String :=
  ((if acc.2.contains ch then acc.1 ++ [ch] else acc.1), acc.2 ++ [ch])

/-- Embedding of `calibrateMultiServerChannels`: walk every client's
channel list in order; every channel name already seen earlier in the
walk is pushed onto the multi-server list. -/
def calibrateMultiServerChannels (clients : List IrcClientConf) :
    List String :=
  (clients.foldl (fun acc c => c.channels.foldl calibrateStep acc)
    ([], [])).1

/-- Embedding of `getChannelFullName`: qualify the channel name with the
server name exactly when the channel is on the multi-server list. -/
def getChannelFullName (multiServerChannels : List String)
    (server channel : String) : String :=
  if multiServerChannels.contains channel then server ++ " " ++ channel
  else channel

/-- The client state `reconnectServer` reads: the identifying name
(`extConfig.name`) and the `_pyramidAborted` flag set by `abortClient`
and cleared on a successful connect. -/
structure IrcClient where
  name : String
  pyramidAborted : Bool
deriving DecidableEq, Repr

/-- Embedding of `findClientByServerName`: first client whose name
matches. -/
def findClientByServerName (clients : List IrcClient)
    (serverName : String) : Option IrcClient :=
  clients.find? (fun c => c.name == serverName)

/-- The warning `reconnectServer` logs through `main.warn` when the
request is disregarded. -/
def reconnectWarning (serverName : String) : String :=
  "Disregarded " ++ serverName ++
    " IRC reconnect request, because client isn't aborted"

/-- The observable outcome of `reconnectServer`: the (unchanged) client
list, the `connect()` calls issued, and the warnings logged. -/
structure ReconnectOutcome where
  clients : List IrcClient
  connectCalls : List String
  warnings : List String
deriving DecidableEq, Repr

/-- Embedding of `reconnectServer`: `connect()` is called only when a
client with the given name exists and is flagged aborted; otherwise the
request is disregarded with a logged warning and nothing else happens. -/
def reconnectServer (clients : List IrcClient) (serverName : String) :
    ReconnectOutcome :=
  match findClientByServerName clients serverName with
  | some c =>
    if c.pyramidAborted then
      { clients := clients, connectCalls := [serverName], warnings := [] }
    else
      { clients := clients, connectCalls := [],
        warnings := [reconnectWarning serverName] }
  | none =>
    { clients := clients, connectCalls := [],
      warnings := [reconnectWarning serverName] }

/-! ## Relationship tier (`irc.js`, `handleMessage`) -/

/-- JS `String.prototype.toLowerCase` on the ASCII usernames involved:
lower-case every character. -/
def toLowerCase (s : String) : String :=
  ⟨s.data.map Char.toLower⟩

/-- Embedding of the relationship computation in `handleMessage`: the
lowercased author name is looked up in the concatenation of the
best-friends and friends config lists; a hit that is also on the
best-friends list yields the best-friend tier, any other hit the friend
tier, and a miss the none tier. -/
def handleMessageRelationship (bestFriends friends : List String)
    (author : String) : Nat :=
  let allFriends := bestFriends ++ friends
  if allFriends.contains (toLowerCase author) then
    if bestFriends.contains (toLowerCase author) then RELATIONSHIP_BEST_FRIEND
    else RELATIONSHIP_FRIEND
  else RELATIONSHIP_NONE

/-! ## Log line formats (`server/log.js`)

The parsers in the source are regular expressions.  The character
classes involved (`[@\+%!\.]` for symbols, the username class, `\s`) are
pairwise disjoint from each other and from the literal delimiters, so
greedy left-to-right scanning needs no backtracking and each regex is
embedded as a deterministic scanner over the character list. -/

/-- The symbol character class `[@\+%!\.]` of
`USERNAME_SYMBOL_RGXSTR`. -/
def isSymbolChar (c : Char) : Bool :=
  c == '@' || c == '+' || c == '%' || c == '!' || c == '.'

/-- The username character class `[A-Za-z0-9|\[\]{}\\_-]` of
`USERNAME_SYMBOL_RGXSTR`. -/
def isUsernameChar (c : Char) : Bool :=
  c.isAlphanum || c == '|' || c == '[' || c == ']' ||
    c == '\x7b' || c == '\x7d' || c == '\\' || c == '_' || c == '-'

/-- The fields the `msg` parser returns. -/
structure MsgLineFields where
  message : String
  symbol : String
  type : String
  username : String
deriving DecidableEq, Repr

/-- Embedding of `lineFormats.msg.build`. -/
def msgLineBuild (symbol username message : String) : String :=
  "<" ++ symbol ++ username ++ "> " ++ message

/-- Embedding of `lineFormats.msg.parse`.  The regex is assembled in a
JS template literal where `\s` is the literal character `s` (the
backslash escapes nothing there), so the pattern is
`^<(symbols)(username)>s*` and the matched prefix never covers the space
that `build` places after `>`. -/
def msgLineParse (line : String) : Option MsgLineFields :=
  match line.toList with
  | '<' :: rest =>
    let syms := rest.takeWhile isSymbolChar
    let rest1 := rest.drop syms.length
    let users := rest1.takeWhile isUsernameChar
    let rest2 := rest1.drop users.length
    if users.isEmpty then none
    else
      match rest2 with
      | '>' :: rest3 =>
        let literalS := rest3.takeWhile (fun c => c == 's')
        let matchedLen := 1 + syms.length + users.length + 1 + literalS.length
        some { message := (line.toList.drop matchedLen).asString,
               symbol := syms.asString, type := "msg",
               username := users.asString }
      | _ => none
  | _ => none

/-- The fields returned by `eventWithReasonLogParser` (part, quit,
kill): `reason` is `undefined` — modelled `none` — when the line carries
no parenthesised reason. -/
structure EventReasonFields where
  reason : Option String
  symbol : String
  username : String
deriving DecidableEq, Repr

/-- The ` (reason)` suffix appended by the part/quit/kill builders when
the reason is truthy (a missing or empty reason adds nothing). -/
def reasonSuffix (reason : Option String) : String :=
  match reason with
  | some r => if r.isEmpty then "" else " (" ++ r ++ ")"
  | none => ""

/-- Embedding of `lineFormats.part.build`. -/
def partLineBuild (symbol username : String) (reason : Option String) :
    String :=
  "** " ++ symbol ++ username ++ " left" ++ reasonSuffix reason

/-- Embedding of `eventWithReasonLogParser(descriptor)`: the regex
`^\*\*\s*(symbols)(username)\s+descriptor(\s+\(([^\)]+)\))?$`, whose
match groups are 1 = symbol, 2 = username, 3 = the whole optional
` (reason)` group and 4 = the bare reason text.  The parser returns
`match[3]`, i.e. the optional group including its leading whitespace and
parentheses. -/
def eventWithReasonLogParse (descriptor : String) (line : String) :
    Option EventReasonFields :=
  match line.toList with
  | '*' :: '*' :: rest =>
    let ws := rest.takeWhile Char.isWhitespace
    let rest1 := rest.drop ws.length
    let syms := rest1.takeWhile isSymbolChar
    let rest2 := rest1.drop syms.length
    let users := rest2.takeWhile isUsernameChar
    let rest3 := rest2.drop users.length
    if users.isEmpty then none
    else
      let ws2 := rest3.takeWhile Char.isWhitespace
      let rest4 := rest3.drop ws2.length
      if ws2.isEmpty then none
      else if descriptor.toList.isPrefixOf rest4 then
        let rest5 := rest4.drop descriptor.length
        if rest5.isEmpty then
          some { reason := none, symbol := syms.asString,
                 username := users.asString }
        else
          let ws3 := rest5.takeWhile Char.isWhitespace
          let rest6 := rest5.drop ws3.length
          if ws3.isEmpty then none
          else
            match rest6 with
            | '(' :: r7 =>
              let inner := r7.takeWhile (fun c => c != ')')
              let r8 := r7.drop inner.length
              if inner.isEmpty then none
              else if r8 == [')'] then
                some { reason := some ((ws3 ++ '(' :: (inner ++ [')'])).asString),
                       symbol := syms.asString,
                       username := users.asString }
              else none
            | _ => none
      else none
  | _ => none

/-- Embedding of `lineFormats.part.parse =
eventWithReasonLogParser("left")`. -/
def partLineParse (line : String) : Option EventReasonFields :=
  eventWithReasonLogParse "left" line

/-! ## IO module (`setServer` socket handlers) -/

/-- One inbound viewer request, as dispatched by the socket handlers
registered in `setServer`.  String-typed payload slots are `Option`s:
`none` models an absent (or non-string, where `typeof` is checked)
value. -/
inductive SocketRequest where
  | requestChannelCache (channel : Option String)
  | requestUserCache (username : Option String)
  | requestCategoryCache (categoryName : Option String)
  | subscribeReq (channel username category : Option String)
  | unsubscribeReq (channel username category : Option String)
  | requestUserLogDetails (username : Option String) (time : Option String)
  | requestChannelLogDetails (channel : Option String) (time : Option String)
  | requestUserLogFile (username time : Option String) (pageNumber : Option Nat)
  | requestChannelLogFile (channel time : Option String) (pageNumber : Option Nat)
  | reportHighlightAsSeen (messageId : Option String)
  | clearUnseenHighlights
  | storeViewState (viewState : Option String)
  | sendMessage (channel message token messageToken : Option String)
  | requestLineInfo (lineId : Option String)
  | reloadBaseData
  | addNewFriend (username : Option String) (level : Option Nat)
  | changeFriendLevel (username : Option String) (level : Option Nat)
  | removeFriend (username : Option String)
  | setAppConfigValue (key : Option String) (value : Option String)
  | addIrcServer (name : Option String) (data : Option String)
  | changeIrcServer (name : Option String) (data : Option String)
  | removeIrcServer (name : Option String)
  | addIrcChannel (serverName : Option String) (channelName : Option String)
  | removeIrcChannel (serverName : Option String) (channelName : Option String)
  | addNickname (nickname : Option String)
  | changeNicknameValue (nickname key : Option String) (value : Option String)
  | removeNickname (nickname : Option String)
  | reconnectToIrcServer (name : Option String)
  | requestSystemInfo
deriving DecidableEq, Repr

/-- A call a handler makes into the `main` collaborators (recipients
registry, unseen highlights, view state, irc control, friends,
app config, irc config, nicknames, log).  Success-callback emissions
ride on the recorded call. -/
inductive MainAction where
  | addChannelRecipient (channel : String)
  | addUserRecipient (username : String)
  | addCategoryRecipient (category : String)
  | removeChannelRecipient (channel : String)
  | removeUserRecipient (username : String)
  | removeCategoryRecipient (category : String)
  | reportHighlightAsSeen (messageId : String)
  | clearUnseenHighlights
  | storeViewState (viewState : String)
  | sendOutgoingMessage (channel message : String)
  | addToFriends (serverId : Nat) (username : String) (isBestFriend : Bool)
  | modifyFriend (serverId : Nat) (username : String) (isBestFriend : Bool)
  | removeFromFriends (serverId : Nat) (username : String)
  | storeConfigValue (key : String) (value : Option String)
  | addIrcServerFromDetails (name data : String)
  | modifyServerInIrcConfig (name data : String)
  | removeServerFromIrcConfig (name : String)
  | addChannelToIrcConfig (serverName channelName : String)
  | removeChannelFromIrcConfig (serverName channelName : String)
  | addNickname (nickname : String)
  | modifyNickname (nickname key : String) (value : Option String)
  | removeNickname (nickname : String)
  | reconnectIrcServer (name : String)
  | getDatabaseSize
  | getLogFolderSize
deriving DecidableEq, Repr

/-- A direct reply emitted on the requesting socket. -/
inductive SocketEmission where
  | channelCache (channel : String)
  | userCache (username : String)
  | categoryCache (category : String)
  | channelUserList (channel : String)
  | channelData (channel : String)
  | userLogDetails (username : String) (time : Option String)
  | channelLogDetails (channel : String) (time : Option String)
  | userLogFile (username time : String) (pageNumber : Option Nat)
  | channelLogFile (channel time : String) (pageNumber : Option Nat)
  | lineInfo (lineId : String)
  | baseData
  | messagePosted (channel messageToken : String)
deriving DecidableEq, Repr

/-- Embedding of the socket request handlers of `setServer`.  Every
handler first rejects the request unless the connection token has been
accepted (`tokenUtils.isAnAcceptedToken(connectionToken)`); the
collaborator calls it then makes and the replies it then emits are
returned as explicit lists.  `isAccepted` stands for the token check of
the missing `util/tokens` module, and `formatUriName`, `lowerClean` and
`normalise` for the string utilities of the missing `util/strings`
module. -/
def handleSocketRequest (isAccepted : Option String → Bool)
    (formatUriName lowerClean normalise : String → String)
    (connectionToken : Option String) (req : SocketRequest) :
    List MainAction × List SocketEmission :=
  if ¬ isAccepted connectionToken then ([], [])
  else
    match req with
    | .requestChannelCache channel =>
      match channel with
      | some c => ([], [.channelCache c])
      | none => ([], [])
    | .requestUserCache username =>
      match username with
      | some u => ([], [.userCache u])
      | none => ([], [])
    | .requestCategoryCache categoryName =>
      match categoryName with
      | some c => ([], [.categoryCache c])
      | none => ([], [])
    | .subscribeReq channel username category =>
      match channel with
      | some c =>
        ([.addChannelRecipient c],
          [.channelCache c, .channelUserList c, .channelData c])
      | none =>
        match username with
        | some u => ([.addUserRecipient u], [.userCache u])
        | none =>
          match category with
          | some c => ([.addCategoryRecipient c], [.categoryCache c])
          | none => ([], [])
    | .unsubscribeReq channel username category =>
      match channel with
      | some c => ([.removeChannelRecipient c], [])
      | none =>
        match username with
        | some u => ([.removeUserRecipient u], [])
        | none =>
          match category with
          | some c => ([.removeCategoryRecipient c], [])
          | none => ([], [])
    | .requestUserLogDetails username time =>
      match username with
      | some u => ([], [.userLogDetails u time])
      | none => ([], [])
    | .requestChannelLogDetails channel time =>
      match channel with
      | some c => ([], [.channelLogDetails c time])
      | none => ([], [])
    | .requestUserLogFile username time pageNumber =>
      match username, time with
      | some u, some t => ([], [.userLogFile u t pageNumber])
      | _, _ => ([], [])
    | .requestChannelLogFile channel time pageNumber =>
      match channel, time with
      | some c, some t => ([], [.channelLogFile c t pageNumber])
      | _, _ => ([], [])
    | .reportHighlightAsSeen messageId =>
      match messageId with
      | some m => ([.reportHighlightAsSeen m], [])
      | none => ([], [])
    | .clearUnseenHighlights => ([.clearUnseenHighlights], [])
    | .storeViewState viewState =>
      match viewState with
      | some v => ([.storeViewState v], [])
      | none => ([], [])
    | .sendMessage channel message token messageToken =>
      match channel, message, token with
      | some c, some m, some t =>
        if isAccepted (some t) then
          (([.sendOutgoingMessage c (normalise m)]),
            (match messageToken with
             | some mt => [.messagePosted c mt]
             | none => []))
        else ([], [])
      | _, _, _ => ([], [])
    | .requestLineInfo lineId =>
      match lineId with
      | some l => ([], [.lineInfo l])
      | none => ([], [])
    | .reloadBaseData => ([], [.baseData])
    | .addNewFriend username level =>
      match username with
      | some u => ([.addToFriends 0 (formatUriName u) (level == some 2)], [])
      | none => ([], [])
    | .changeFriendLevel username level =>
      match username, level with
      | some u, some l => ([.modifyFriend 0 (formatUriName u) (l == 2)], [])
      | _, _ => ([], [])
    | .removeFriend username =>
      match username with
      | some u => ([.removeFromFriends 0 (formatUriName u)], [])
      | none => ([], [])
    | .setAppConfigValue key value =>
      match key with
      | some k => ([.storeConfigValue k value], [])
      | none => ([], [])
    | .addIrcServer name data =>
      match name, data with
      | some n, some d => ([.addIrcServerFromDetails n d], [])
      | _, _ => ([], [])
    | .changeIrcServer name data =>
      match name, data with
      | some n, some d => ([.modifyServerInIrcConfig (formatUriName n) d], [])
      | _, _ => ([], [])
    | .removeIrcServer name =>
      match name with
      | some n => ([.removeServerFromIrcConfig (formatUriName n)], [])
      | none => ([], [])
    | .addIrcChannel serverName channelName =>
      match serverName, channelName with
      | some s, some n =>
        ([.addChannelToIrcConfig (formatUriName s) (formatUriName n)], [])
      | _, _ => ([], [])
    | .removeIrcChannel serverName channelName =>
      match serverName, channelName with
      | some s, some n =>
        ([.removeChannelFromIrcConfig (formatUriName s) (formatUriName n)], [])
      | _, _ => ([], [])
    | .addNickname nickname =>
      match nickname with
      | some n => ([.addNickname (lowerClean n)], [])
      | none => ([], [])
    | .changeNicknameValue nickname key value =>
      match nickname, key with
      | some n, some k => ([.modifyNickname (lowerClean n) k value], [])
      | _, _ => ([], [])
    | .removeNickname nickname =>
      match nickname with
      | some n => ([.removeNickname (lowerClean n)], [])
      | none => ([], [])
    | .reconnectToIrcServer name =>
      match name with
      | some n => ([.reconnectIrcServer (formatUriName n)], [])
      | none => ([], [])
    | .requestSystemInfo => ([.getDatabaseSize, .getLogFolderSize], [])

/-! ## Sample data shared by concrete runs -/

/-- A configuration with the default capacity and small, spec-plausible
bunch and context constants, used for concrete runs. -/
def cfgSample : CacheConfig :=
  { cacheLines := 150, bunchedEventSize := 10, contextCacheLines := 40,
    logLinesDb := true }

/-- A sample join event. -/
def joinSample : EventData :=
  { type := "join", channel := "net/chan", server := "net",
    username := "u1", time := 11, lineId := 100 }

/-- A sample part event. -/
def partSample : EventData :=
  { type := "part", channel := "net/chan", server := "net",
    username := "u1", time := 12, lineId := 101 }


/-- A state whose `net/chan` channel cache holds a join and a part
record, used for concrete runs. -/
def replaceSampleState : CachesState :=
  { initialCachesState with
      channelCaches :=
        updateMap initialCachesState.channelCaches "net/chan"
          [CacheLine.ev joinSample, CacheLine.ev partSample] }


/-- The record built by the sample highlighted message below. -/
def mH : MsgData :=
  { channel := "net/chan", color := 0, highlight := ["bob"], lineId := 1,
    message := "hello bob", relationship := 0, server := "net", symbol := "",
    tags := [], time := 1, type := "msg", username := "alice" }

/-- The record built by the sample follow-up message below. -/
def mZ : MsgData :=
  { channel := "net/chan", color := 0, highlight := [], lineId := 2,
    message := "more", relationship := 0, server := "net", symbol := "",
    tags := [], time := 2, type := "msg", username := "zed" }

/-- A state holding one open highlight context on `net/chan`: the result
of caching a highlighted message on the fresh state. -/
def stH : CachesState :=
  cacheMessage cfgSample (fun _ => 0) initialCachesState "net/chan" "net"
    "alice" "" 1 "msg" "hello bob" [] 0 ["bob"]

/-! ## Theorems -/


/-! ### Frame lemmas for the cache module operations -/

/-- The operation `cacheChannelEvent` only touches the channel cache of its channel. -/
lemma cacheChannelEvent_frame (cfg : CacheConfig) (st : CachesState)
    (channel : String) (data : CacheLine) :
    (cacheChannelEvent cfg st channel data).userCaches = st.userCaches ∧
    (cacheChannelEvent cfg st channel data).categoryCaches = st.categoryCaches ∧
    (cacheChannelEvent cfg st channel data).currentHighlightContexts
      = st.currentHighlightContexts ∧
    (cacheChannelEvent cfg st channel data).uuidCounter = st.uuidCounter ∧
    (cacheChannelEvent cfg st channel data).unseenHighlightIds
      = st.unseenHighlightIds ∧
    (∀ x, x ≠ channel →
      (cacheChannelEvent cfg st channel data).channelCaches x
        = st.channelCaches x) ∧
    (cacheChannelEvent cfg st channel data).channelCaches channel
      = some (cacheItem cfg.cacheLines ((st.channelCaches channel).getD []) data) := by
  refine ⟨rfl, rfl, rfl, rfl, rfl, ?_, ?_⟩
  · intro x hx
    simp [cacheChannelEvent, updateMap, hx]
  · simp [cacheChannelEvent, updateMap]

/-- The operation `cacheUserMessage` only touches the user cache of its username. -/
lemma cacheUserMessage_frame (cfg : CacheConfig) (st : CachesState)
    (username : String) (msg : MsgData) :
    (cacheUserMessage cfg st username msg).channelCaches = st.channelCaches ∧
    (cacheUserMessage cfg st username msg).categoryCaches = st.categoryCaches ∧
    (cacheUserMessage cfg st username msg).currentHighlightContexts
      = st.currentHighlightContexts ∧
    (cacheUserMessage cfg st username msg).uuidCounter = st.uuidCounter := by
  exact ⟨rfl, rfl, rfl, rfl⟩

/-- The operation `createCurrentHighlightContext` only touches the open-context list
of its channel. -/
lemma createCurrentHighlightContext_frame (st : CachesState)
    (channel : String) (highlightMsg : CatMsg) :
    (createCurrentHighlightContext st channel highlightMsg).channelCaches
      = st.channelCaches ∧
    (createCurrentHighlightContext st channel highlightMsg).userCaches
      = st.userCaches ∧
    (createCurrentHighlightContext st channel highlightMsg).categoryCaches
      = st.categoryCaches ∧
    (createCurrentHighlightContext st channel highlightMsg).uuidCounter
      = st.uuidCounter ∧
    (∀ x, x ≠ channel →
      (createCurrentHighlightContext st channel highlightMsg).currentHighlightContexts x
        = st.currentHighlightContexts x) ∧
    (createCurrentHighlightContext st channel highlightMsg).currentHighlightContexts channel
      = some (((st.currentHighlightContexts channel).getD []) ++ [highlightMsg]) := by
  refine ⟨rfl, rfl, rfl, rfl, ?_, ?_⟩
  · intro x hx
    simp [createCurrentHighlightContext, updateMap, hx]
  · simp [createCurrentHighlightContext, updateMap]

/-- The operation `cacheCategoryMessage` never touches channel caches, user caches or
the uuid counter, and leaves every category other than its own alone. -/
lemma cacheCategoryMessage_frame (cfg : CacheConfig) (st : CachesState)
    (categoryName : String) (msg : CatMsg) :
    (cacheCategoryMessage cfg st categoryName msg).channelCaches
      = st.channelCaches ∧
    (cacheCategoryMessage cfg st categoryName msg).userCaches
      = st.userCaches ∧
    (cacheCategoryMessage cfg st categoryName msg).uuidCounter
      = st.uuidCounter ∧
    (∀ x, x ≠ categoryName →
      (cacheCategoryMessage cfg st categoryName msg).categoryCaches x
        = st.categoryCaches x) ∧
    (cacheCategoryMessage cfg st categoryName msg).categoryCaches categoryName
      = some (cacheItem cfg.cacheLines
          ((st.categoryCaches categoryName).getD []) msg) := by
  unfold cacheCategoryMessage
  by_cases h : categoryName = "highlights" ∧ msg.msg.lineId ≠ 0
  · obtain ⟨h1, h2⟩ := h
    subst h1
    rw [if_pos ⟨rfl, h2⟩]
    refine ⟨rfl, rfl, rfl, ?_, ?_⟩
    · intro x hx
      simp [createCurrentHighlightContext, updateMap, hx]
    · simp [createCurrentHighlightContext, updateMap]
  · rw [if_neg h]
    refine ⟨rfl, rfl, rfl, ?_, ?_⟩
    · intro x hx
      simp [updateMap, hx]
    · simp [updateMap]

/-- The operation `addToCurrentHighlightContext` never touches channel caches, user
caches, the uuid counter or the unseen set, leaves every category other
than `"highlights"` alone and every channel's open contexts other than
its own. -/
lemma addToCurrentHighlightContext_frame (cfg : CacheConfig)
    (st : CachesState) (channel : String) (msg : CacheLine) :
    (addToCurrentHighlightContext cfg st channel msg).channelCaches
      = st.channelCaches ∧
    (addToCurrentHighlightContext cfg st channel msg).userCaches
      = st.userCaches ∧
    (addToCurrentHighlightContext cfg st channel msg).uuidCounter
      = st.uuidCounter ∧
    (addToCurrentHighlightContext cfg st channel msg).unseenHighlightIds
      = st.unseenHighlightIds ∧
    (∀ x, x ≠ "highlights" →
      (addToCurrentHighlightContext cfg st channel msg).categoryCaches x
        = st.categoryCaches x) ∧
    (∀ x, x ≠ channel →
      (addToCurrentHighlightContext cfg st channel msg).currentHighlightContexts x
        = st.currentHighlightContexts x) := by
  unfold addToCurrentHighlightContext
  by_cases he : ((st.currentHighlightContexts channel).getD []).isEmpty
  · simp [he]
  · rw [if_neg he]
    refine ⟨rfl, rfl, rfl, rfl, ?_, ?_⟩
    · intro x hx
      simp [updateMap, hx]
    · intro x hx
      simp [updateMap, hx]

/-- The operation `storeBunchableLine` only touches the pending-insert queue. -/
lemma storeBunchableLine_frame (cfg : CacheConfig) (st : CachesState)
    (channel : String) (data : CacheLine) :
    (storeBunchableLine cfg st channel data).channelCaches = st.channelCaches ∧
    (storeBunchableLine cfg st channel data).userCaches = st.userCaches ∧
    (storeBunchableLine cfg st channel data).categoryCaches = st.categoryCaches ∧
    (storeBunchableLine cfg st channel data).currentHighlightContexts
      = st.currentHighlightContexts ∧
    (storeBunchableLine cfg st channel data).uuidCounter = st.uuidCounter ∧
    (storeBunchableLine cfg st channel data).unseenHighlightIds
      = st.unseenHighlightIds := by
  unfold storeBunchableLine
  split
  · exact ⟨rfl, rfl, rfl, rfl, rfl, rfl⟩
  · exact ⟨rfl, rfl, rfl, rfl, rfl, rfl⟩

/-- The operation `deleteLinesWithLineIds` only touches the pending queues. -/
lemma deleteLinesWithLineIds_frame (st : CachesState) (lineIds : List Nat) :
    (deleteLinesWithLineIds st lineIds).channelCaches = st.channelCaches ∧
    (deleteLinesWithLineIds st lineIds).userCaches = st.userCaches ∧
    (deleteLinesWithLineIds st lineIds).categoryCaches = st.categoryCaches ∧
    (deleteLinesWithLineIds st lineIds).currentHighlightContexts
      = st.currentHighlightContexts ∧
    (deleteLinesWithLineIds st lineIds).uuidCounter = st.uuidCounter ∧
    (deleteLinesWithLineIds st lineIds).unseenHighlightIds
      = st.unseenHighlightIds := by
  induction lineIds generalizing st with
  | nil => exact ⟨rfl, rfl, rfl, rfl, rfl, rfl⟩
  | cons a t ih =>
    have step := ih
      { st with
          lineIdsToDelete :=
            if st.lineIdsToDelete.contains a then st.lineIdsToDelete
            else st.lineIdsToDelete ++ [a],
          bunchableLinesToInsert :=
            st.bunchableLinesToInsert.filter (fun e => e.1 ≠ a) }
    exact step

/-- The operation `replaceLastCacheItem` never touches user caches, category caches,
open contexts or the uuid counter, leaves other channels alone, and —
when the channel cache is missing or empty — leaves all channel caches
alone too. -/
lemma replaceLastCacheItem_frame (cfg : CacheConfig) (st : CachesState)
    (channel : String) (data : CacheLine) :
    (replaceLastCacheItem cfg st channel data).userCaches = st.userCaches ∧
    (replaceLastCacheItem cfg st channel data).categoryCaches = st.categoryCaches ∧
    (replaceLastCacheItem cfg st channel data).currentHighlightContexts
      = st.currentHighlightContexts ∧
    (replaceLastCacheItem cfg st channel data).uuidCounter = st.uuidCounter ∧
    (∀ x, x ≠ channel →
      (replaceLastCacheItem cfg st channel data).channelCaches x
        = st.channelCaches x) ∧
    (∀ cache, st.channelCaches channel = some cache → cache ≠ [] →
      (replaceLastCacheItem cfg st channel data).channelCaches channel
        = some (cache.set (cache.length - 1) data)) ∧
    ((st.channelCaches channel = none ∨ st.channelCaches channel = some []) →
      (replaceLastCacheItem cfg st channel data).channelCaches
        = st.channelCaches) := by
  unfold replaceLastCacheItem
  set cache := (st.channelCaches channel).getD [] with hcache
  set st1 :=
    (if cache.length ≠ 0 then
      { st with channelCaches :=
          updateMap st.channelCaches channel (cache.set (cache.length - 1) data) }
    else st) with hst1
  have h2 := storeBunchableLine_frame cfg st1 channel data
  set st2 := storeBunchableLine cfg st1 channel data with hst2
  have hfinal :
      (if data.prevIds ≠ [] then deleteLinesWithLineIds st2 data.prevIds else st2).channelCaches
          = st2.channelCaches ∧
      (if data.prevIds ≠ [] then deleteLinesWithLineIds st2 data.prevIds else st2).userCaches
          = st2.userCaches ∧
      (if data.prevIds ≠ [] then deleteLinesWithLineIds st2 data.prevIds else st2).categoryCaches
          = st2.categoryCaches ∧
      (if data.prevIds ≠ [] then deleteLinesWithLineIds st2 data.prevIds else st2).currentHighlightContexts
          = st2.currentHighlightContexts ∧
      (if data.prevIds ≠ [] then deleteLinesWithLineIds st2 data.prevIds else st2).uuidCounter
          = st2.uuidCounter := by
    by_cases hp : data.prevIds ≠ []
    · rw [if_pos hp]
      have hd := deleteLinesWithLineIds_frame st2 data.prevIds
      exact ⟨hd.1, hd.2.1, hd.2.2.1, hd.2.2.2.1, hd.2.2.2.2.1⟩
    · rw [if_neg hp]
      exact ⟨rfl, rfl, rfl, rfl, rfl⟩
  have hst1cc : ∀ x, x ≠ channel → st1.channelCaches x = st.channelCaches x := by
    intro x hx
    rw [hst1]
    by_cases hl : cache.length ≠ 0
    · rw [if_pos hl]
      simp [updateMap, hx]
    · rw [if_neg hl]
  have hst1rest : st1.userCaches = st.userCaches ∧
      st1.categoryCaches = st.categoryCaches ∧
      st1.currentHighlightContexts = st.currentHighlightContexts ∧
      st1.uuidCounter = st.uuidCounter := by
    rw [hst1]
    by_cases hl : cache.length ≠ 0
    · rw [if_pos hl]
      exact ⟨rfl, rfl, rfl, rfl⟩
    · rw [if_neg hl]
      exact ⟨rfl, rfl, rfl, rfl⟩
  refine ⟨?_, ?_, ?_, ?_, ?_, ?_, ?_⟩
  · rw [hfinal.2.1, h2.2.1, hst1rest.1]
  · rw [hfinal.2.2.1, h2.2.2.1, hst1rest.2.1]
  · rw [hfinal.2.2.2.1, h2.2.2.2.1, hst1rest.2.2.1]
  · rw [hfinal.2.2.2.2, h2.2.2.2.2.1, hst1rest.2.2.2]
  · intro x hx
    rw [hfinal.1, h2.1, hst1cc x hx]
  · intro c hc hne
    rw [hfinal.1, h2.1, hst1]
    have hl : cache.length ≠ 0 := by
      rw [hcache, hc]
      simpa using hne
    rw [if_pos hl]
    rw [hcache, hc]
    simp [updateMap]
  · intro hc
    rw [hfinal.1, h2.1, hst1]
    have hl : ¬ cache.length ≠ 0 := by
      rw [hcache]
      rcases hc with hc | hc <;> rw [hc] <;> simp
    rw [if_neg hl]


/-- One run of `cacheItem` from a state that is the most-recent-`cap`
suffix of the history seen so far lands on the most-recent-`cap` suffix
of the extended history. -/
lemma cacheItem_drop_step {α : Type} (cap : Nat) (l : List α) (a : α) :
    cacheItem cap (l.drop (l.length - cap)) a
      = (l ++ [a]).drop (l.length + 1 - cap) := by
  unfold cacheItem
  by_cases hle : l.length + 1 ≤ cap
  · have h0 : l.length - cap = 0 := by omega
    have h1 : l.length + 1 - cap = 0 := by omega
    rw [h0, h1, List.drop_zero, List.drop_zero]
    have hnot : ¬ ((l ++ [a]).length > cap) := by
      simp only [List.length_append, List.length_singleton]
      omega
    simp only [hnot, if_false, ite_false]
  · -- the pushed list goes over capacity, the shift branch fires
    have hlen : (l.drop (l.length - cap) ++ [a]).length
        = l.length - (l.length - cap) + 1 := by
      simp [List.length_append]
    have hgt : (l.drop (l.length - cap) ++ [a]).length > cap := by omega
    have heq : (l.drop (l.length - cap) ++ [a]).length = cap + 1 := by omega
    rw [if_pos hgt, if_pos heq]
    have hsplit : l.drop (l.length - cap) ++ [a] = (l ++ [a]).drop (l.length - cap) := by
      rw [List.drop_append_of_le_length (by omega)]
    rw [hsplit, List.tail_drop]
    congr 1
    omega

/-- Folding `cacheItem` over any history from the empty cache produces
exactly the most-recent-`cap` suffix of that history. -/
lemma cacheItem_foldl_eq_suffix {α : Type} (cap : Nat) (history : List α) :
    history.foldl (cacheItem cap) [] = history.drop (history.length - cap) := by
  induction history using List.reverseRecOn with
  | nil => simp
  | append_singleton l a ih =>
      rw [List.foldl_append, List.foldl_cons, List.foldl_nil, ih,
        cacheItem_drop_step]
      simp [List.length_append]

/-- C1: for every cache key and every sequence of appends through
`cacheItem`, the stored sequence never exceeds the configured capacity
and always equals the most-recent-`cap` suffix of the full append
history; an append that overflows by exactly one removes exactly the
head, and an append that overflows by more slices to the most recent
`cap` entries. -/
theorem cacheItem_bounded_recent_suffix (α : Type) (cap : Nat) :
    (∀ history : List α,
      (history.foldl (cacheItem cap) []).length ≤ cap ∧
      history.foldl (cacheItem cap) []
        = history.drop (history.length - cap)) ∧
    (∀ (cache : List α) (d : α), (cache ++ [d]).length = cap + 1 →
      cacheItem cap cache d = (cache ++ [d]).tail) ∧
    (∀ (cache : List α) (d : α), (cache ++ [d]).length > cap + 1 →
      cacheItem cap cache d = (cache ++ [d]).drop ((cache ++ [d]).length - cap)) := by
  refine ⟨fun history => ⟨?_, cacheItem_foldl_eq_suffix cap history⟩, ?_, ?_⟩
  · rw [cacheItem_foldl_eq_suffix]
    rw [List.length_drop]
    omega
  · intro cache d h
    unfold cacheItem
    simp only [h]
    simp
  · intro cache d h
    unfold cacheItem
    have h1 : (cache ++ [d]).length > cap := by omega
    have h2 : ¬ (cache ++ [d]).length = cap + 1 := by omega
    simp only [if_pos h1, if_neg h2]

/-- Concrete check of `cacheItem_bounded_recent_suffix` at capacity 2. -/
theorem cacheItem_bounded_recent_suffix_witness :
    ([1, 2, 3, 4] : List Nat).foldl (cacheItem 2) [] = [3, 4] ∧
    cacheItem 2 [9, 8] 7 = [8, 7] ∧
    cacheItem 2 [9, 8, 6] 7 = [6, 7] := by
  have h := cacheItem_bounded_recent_suffix Nat 2
  refine ⟨?_, ?_, ?_⟩
  · have h14 := (h.1 [1, 2, 3, 4]).2
    simpa using h14
  · have := h.2.1 [9, 8] 7 (by decide)
    simpa using this
  · have := h.2.2 [9, 8, 6] 7 (by decide)
    simpa using this


/-- C10: replacing the most recent entry of a non-empty channel cache
through `replaceLastCacheItem` keeps the cache length and every entry
other than the last one, and leaves other channels alone; when the
channel has no cache or an empty one, the in-memory caches are left
entirely unchanged. -/
theorem replaceLastCacheItem_only_last_entry (cfg : CacheConfig)
    (st : CachesState) (channel : String) (data : CacheLine) :
    (∀ cache, st.channelCaches channel = some cache → cache ≠ [] →
      (replaceLastCacheItem cfg st channel data).channelCaches channel
          = some (cache.set (cache.length - 1) data) ∧
      (cache.set (cache.length - 1) data).length = cache.length ∧
      (∀ i, i ≠ cache.length - 1 →
        (cache.set (cache.length - 1) data)[i]? = cache[i]?) ∧
      (∀ x, x ≠ channel →
        (replaceLastCacheItem cfg st channel data).channelCaches x
          = st.channelCaches x)) ∧
    ((st.channelCaches channel = none ∨ st.channelCaches channel = some []) →
      (replaceLastCacheItem cfg st channel data).channelCaches
          = st.channelCaches ∧
      (replaceLastCacheItem cfg st channel data).userCaches = st.userCaches ∧
      (replaceLastCacheItem cfg st channel data).categoryCaches
          = st.categoryCaches ∧
      (replaceLastCacheItem cfg st channel data).currentHighlightContexts
          = st.currentHighlightContexts) := by
  have hframe := replaceLastCacheItem_frame cfg st channel data
  refine ⟨?_, ?_⟩
  · intro cache hc hne
    refine ⟨hframe.2.2.2.2.2.1 cache hc hne, List.length_set _ _ _, ?_, ?_⟩
    · intro i hi
      exact List.getElem?_set_ne (Ne.symm hi)
    · intro x hx
      exact hframe.2.2.2.2.1 x hx
  · intro hc
    exact ⟨hframe.2.2.2.2.2.2 hc, hframe.1, hframe.2.1, hframe.2.2.1⟩

/-- Concrete check of `replaceLastCacheItem_only_last_entry`: replacing
the last of two entries only changes the last one, and a channel without
a cache is untouched. -/
theorem replaceLastCacheItem_only_last_entry_witness :
    (replaceLastCacheItem cfgSample replaceSampleState "net/chan"
        (.ev joinSample)).channelCaches "net/chan"
      = some [CacheLine.ev joinSample, CacheLine.ev joinSample] ∧
    (replaceLastCacheItem cfgSample replaceSampleState "other"
        (.ev joinSample)).channelCaches
      = replaceSampleState.channelCaches := by
  constructor
  · have h := (replaceLastCacheItem_only_last_entry cfgSample
      replaceSampleState "net/chan" (.ev joinSample)).1
      [CacheLine.ev joinSample, CacheLine.ev partSample] rfl (by simp)
    exact h.1
  · have h := (replaceLastCacheItem_only_last_entry cfgSample
      replaceSampleState "other" (.ev joinSample)).2 (Or.inl rfl)
    exact h.1

/-- C2: the claimed round trip `parse(build(kind, data)) == data` fails
on the code.  For `part` with reason `bye` the parser returns the whole
` (bye)` optional group as the reason (it reads `match[3]`, the outer
group, instead of `match[4]`), and for `msg` the parsed message keeps
the leading space, because the `\s*` of the parse pattern is written in
a template literal where `\s` is a plain `s`. -/
theorem logLineParse_not_inverse_of_build :
    partLineParse (partLineBuild "" "alice" (some "bye"))
      = some { reason := some " (bye)", symbol := "", username := "alice" } ∧
    (some " (bye)" : Option String) ≠ some "bye" ∧
    msgLineParse (msgLineBuild "@" "alice" "hello")
      = some { message := " hello", symbol := "@", type := "msg",
               username := "alice" } ∧
    (" hello" : String) ≠ "hello" :=
  ⟨by decide, by decide, by decide, by decide⟩

/-- C6: a reconnect request for a server whose client is not aborted is
rejected with a logged warning and leaves everything unchanged; a
`connect()` call is issued exactly when the named client exists and is
aborted. -/
theorem reconnectServer_noop_unless_aborted (clients : List IrcClient)
    (serverName : String) :
    (∀ c, findClientByServerName clients serverName = some c →
      c.pyramidAborted = false →
      reconnectServer clients serverName
        = { clients := clients, connectCalls := [],
            warnings := [reconnectWarning serverName] }) ∧
    ((reconnectServer clients serverName).connectCalls ≠ [] ↔
      (∃ c, findClientByServerName clients serverName = some c ∧
        c.pyramidAborted = true)) ∧
    (reconnectServer clients serverName).clients = clients := by
  refine ⟨?_, ?_, ?_⟩
  · intro c hc hab
    unfold reconnectServer
    rw [hc]
    simp [hab]
  · unfold reconnectServer
    split
    · next c heq =>
      by_cases hab : c.pyramidAborted
      · rw [if_pos hab]
        constructor
        · intro _
          exact ⟨c, heq, hab⟩
        · intro _
          simp
      · rw [if_neg hab]
        constructor
        · intro h
          exact absurd rfl h
        · rintro ⟨c', hc', hab'⟩
          rw [heq] at hc'
          cases hc'
          exact absurd hab' hab
    · next heq =>
      constructor
      · intro h
        exact absurd rfl h
      · rintro ⟨c', hc', _⟩
        rw [heq] at hc'
        exact Option.noConfusion hc'
  · unfold reconnectServer
    split
    · next c heq =>
      by_cases hab : c.pyramidAborted
      · rw [if_pos hab]
      · rw [if_neg hab]
    · rfl

/-- Concrete check of `reconnectServer_noop_unless_aborted` on a
non-aborted client. -/
theorem reconnectServer_noop_unless_aborted_witness :
    reconnectServer [{ name := "alpha", pyramidAborted := false }] "alpha"
      = { clients := [{ name := "alpha", pyramidAborted := false }],
          connectCalls := [], warnings := [reconnectWarning "alpha"] } :=
  (reconnectServer_noop_unless_aborted
    [{ name := "alpha", pyramidAborted := false }] "alpha").1
    { name := "alpha", pyramidAborted := false } rfl rfl

/-- C9: every inbound viewer request handler checks the connection token
first; without an accepted token the handler makes no collaborator call
and emits no reply and no error. -/
theorem viewerRequest_ignored_without_token
    (isAccepted : Option String → Bool)
    (formatUriName lowerClean normalise : String → String)
    (connectionToken : Option String) (req : SocketRequest)
    (h : isAccepted connectionToken = false) :
    handleSocketRequest isAccepted formatUriName lowerClean normalise
      connectionToken req = ([], []) := by
  unfold handleSocketRequest
  rw [h]
  simp

/-- Concrete check of `viewerRequest_ignored_without_token`. -/
theorem viewerRequest_ignored_without_token_witness :
    handleSocketRequest (fun _ => false) id id id none
      (SocketRequest.requestChannelCache (some "net/chan")) = ([], []) :=
  viewerRequest_ignored_without_token (fun _ => false) id id id none
    (SocketRequest.requestChannelCache (some "net/chan")) rfl


/-- C8: an author on the best-friends list gets the best-friend tier
(which outranks friend) even when also on the friends list; an author on
neither list gets tier none; and a tier-none message is placed into
neither the per-user cache nor the `"allfriends"` category cache. -/
theorem closeFriend_outranks_and_none_uncached :
    (∀ (bestFriends friends : List String) (author : String),
      (toLowerCase author ∈ bestFriends →
        handleMessageRelationship bestFriends friends author
            = RELATIONSHIP_BEST_FRIEND ∧
        RELATIONSHIP_FRIEND ≤ handleMessageRelationship bestFriends friends author) ∧
      (toLowerCase author ∉ bestFriends → toLowerCase author ∉ friends →
        handleMessageRelationship bestFriends friends author
            = RELATIONSHIP_NONE)) ∧
    (∀ (cfg : CacheConfig) (colorOf : String → Nat) (st : CachesState)
        (channelUri serverName username symbol : String) (time : Nat)
        (type message : String) (tags : List (String × String))
        (highlightStrings : List String),
      (cacheMessage cfg colorOf st channelUri serverName username symbol time
          type message tags RELATIONSHIP_NONE highlightStrings).userCaches
        = st.userCaches ∧
      (cacheMessage cfg colorOf st channelUri serverName username symbol time
          type message tags RELATIONSHIP_NONE highlightStrings).categoryCaches
          "allfriends"
        = st.categoryCaches "allfriends") := by
  constructor
  · intro bestFriends friends author
    constructor
    · intro hbf
      unfold handleMessageRelationship
      have hall : toLowerCase author ∈ bestFriends ++ friends :=
        List.mem_append_left _ hbf
      rw [if_pos (by simpa using hall), if_pos (by simpa using hbf)]
      exact ⟨rfl, by decide⟩
    · intro hbf hf
      unfold handleMessageRelationship
      have hall : toLowerCase author ∉ bestFriends ++ friends := by
        intro hmem
        rcases List.mem_append.mp hmem with h | h
        · exact hbf h
        · exact hf h
      rw [if_neg (by simpa using hall)]
  · intro cfg colorOf st channelUri serverName username symbol time type
      message tags highlightStrings
    simp only [cacheMessage]
    have hrel : ¬ (RELATIONSHIP_FRIEND ≤ RELATIONSHIP_NONE) := by decide
    rw [if_neg hrel]
    set st1 : CachesState := { st with uuidCounter := st.uuidCounter + 1 }
      with hst1def
    have hst1 : st1.userCaches = st.userCaches ∧
        st1.categoryCaches = st.categoryCaches := ⟨rfl, rfl⟩
    set msg0 : MsgData :=
      { channel := channelUri, color := colorOf username,
        highlight := highlightStrings, lineId := st.uuidCounter,
        message := message, relationship := RELATIONSHIP_NONE,
        server := serverName, symbol := symbol, tags := tags, time := time,
        type := type, username := username } with hmsg0
    set st2 := cacheChannelEvent cfg st1 channelUri (.msgLine msg0) with hst2
    have h2 := cacheChannelEvent_frame cfg st1 channelUri (.msgLine msg0)
    set st3 := addToCurrentHighlightContext cfg st2 channelUri (.msgLine msg0)
      with hst3
    have h3 := addToCurrentHighlightContext_frame cfg st2 channelUri
      (.msgLine msg0)
    have hu3 : st3.userCaches = st.userCaches := by
      rw [hst3, h3.2.1, hst2, h2.1, hst1.1]
    have hc3 : st3.categoryCaches "allfriends" = st.categoryCaches "allfriends" := by
      rw [hst3, h3.2.2.2.2.1 "allfriends" (by decide), hst2, h2.2.1, hst1.2]
    by_cases hh : highlightStrings.isEmpty
    · rw [if_neg (by simpa using hh)]
      exact ⟨hu3, hc3⟩
    · rw [if_pos (by simpa using hh)]
      have h4 := cacheCategoryMessage_frame cfg st3 "highlights"
        { msg := msg0,
          contextMessages :=
            ((st1.channelCaches channelUri).getD []).drop
              (((st1.channelCaches channelUri).getD []).length
                - cfg.contextCacheLines) }
      exact ⟨h4.2.1.trans hu3,
        (h4.2.2.2.1 "allfriends" (by decide)).trans hc3⟩

/-- Concrete check of `closeFriend_outranks_and_none_uncached`: a
best-friend collision still yields the best tier, an unknown author
yields none and is cached nowhere user-specific. -/
theorem closeFriend_outranks_and_none_uncached_witness :
    handleMessageRelationship ["ann"] ["ann", "bo"] "Ann"
        = RELATIONSHIP_BEST_FRIEND ∧
    handleMessageRelationship ["ann"] ["bo"] "zed" = RELATIONSHIP_NONE ∧
    (cacheMessage cfgSample (fun _ => 0) initialCachesState "net/chan" "net"
        "zed" "" 5 "msg" "hi" [] RELATIONSHIP_NONE []).userCaches
      = initialCachesState.userCaches ∧
    (cacheMessage cfgSample (fun _ => 0) initialCachesState "net/chan" "net"
        "zed" "" 5 "msg" "hi" [] RELATIONSHIP_NONE []).categoryCaches
        "allfriends"
      = initialCachesState.categoryCaches "allfriends" := by
  have h := closeFriend_outranks_and_none_uncached
  refine ⟨?_, ?_, ?_, ?_⟩
  · exact ((h.1 ["ann"] ["ann", "bo"] "Ann").1 (by decide)).1
  · exact (h.1 ["ann"] ["bo"] "zed").2 (by decide) (by decide)
  · exact (h.2 cfgSample (fun _ => 0) initialCachesState "net/chan" "net"
      "zed" "" 5 "msg" "hi" [] []).1
  · exact (h.2 cfgSample (fun _ => 0) initialCachesState "net/chan" "net"
      "zed" "" 5 "msg" "hi" [] []).2


/-- Walking `calibrateStep` over a channel list: a name ends up on the
multi-server list exactly when it was already there, or it occurs in the
remaining walk and is seen at least twice overall. -/
lemma calibrateStep_foldl_mem (ch : String) :
    ∀ (L m s : List String),
      (ch ∈ (L.foldl calibrateStep (m, s)).1 ↔
        ch ∈ m ∨ (ch ∈ L ∧ 2 ≤ s.count ch + L.count ch)) := by
  intro L
  induction L with
  | nil =>
    intro m s
    simp
  | cons a t ih =>
    intro m s
    rw [List.foldl_cons]
    show ch ∈ (t.foldl calibrateStep
      ((if s.contains a then m ++ [a] else m), s ++ [a])).1 ↔ _
    rw [ih]
    by_cases hca : ch = a
    · subst hca
      have hs1 : (s ++ [ch]).count ch = s.count ch + 1 := by
        rw [List.count_append]
        simp
      have ht1 : (ch :: t).count ch = t.count ch + 1 := by
        simp
      by_cases hsc : ch ∈ s
      · have hc : s.contains ch = true := List.elem_iff.mpr hsc
        have hcount : 0 < s.count ch := List.count_pos_iff.mpr hsc
        rw [if_pos hc]
        apply iff_of_true
        · exact Or.inl (List.mem_append_right m (List.mem_singleton_self ch))
        · refine Or.inr ⟨List.mem_cons_self ch t, ?_⟩
          rw [ht1]
          omega
      · have hc : ¬ s.contains ch = true := fun h => hsc (List.elem_iff.mp h)
        have hcount : s.count ch = 0 := List.count_eq_zero.mpr hsc
        rw [if_neg hc, hs1, ht1, hcount]
        constructor
        · rintro (hm | ⟨ht, hn⟩)
          · exact Or.inl hm
          · exact Or.inr ⟨List.mem_cons_of_mem ch ht, by omega⟩
        · rintro (hm | ⟨-, hn⟩)
          · exact Or.inl hm
          · have htc : 0 < t.count ch := by omega
            exact Or.inr ⟨List.count_pos_iff.mp htc, by omega⟩
    · have hmemif : ch ∈ (if s.contains a then m ++ [a] else m) ↔ ch ∈ m := by
        split
        · constructor
          · intro h
            rcases List.mem_append.mp h with h | h
            · exact h
            · exact absurd (List.mem_singleton.mp h) hca
          · exact fun h => List.mem_append_left _ h
        · exact Iff.rfl
      have hs0 : (s ++ [a]).count ch = s.count ch := by
        have h0 : [a].count ch = 0 := List.count_eq_zero.mpr (by simp [hca])
        rw [List.count_append, h0]
        omega
      have ht0 : (a :: t).count ch = t.count ch := by
        have hac : ¬ a = ch := fun h => hca h.symm
        rw [List.count_cons]
        simp [hac, hca]
      have hmc : ch ∈ a :: t ↔ ch ∈ t := by
        constructor
        · intro h
          rcases List.mem_cons.mp h with h | h
          · exact absurd h hca
          · exact h
        · exact fun h => List.mem_cons_of_mem a h
      rw [hmemif, hs0, ht0, hmc]

/-- The flattened channel walk of `calibrateMultiServerChannels`. -/
lemma calibrateMultiServerChannels_eq_flatten (clients : List IrcClientConf) :
    calibrateMultiServerChannels clients
      = (((clients.map IrcClientConf.channels).flatten).foldl calibrateStep
          ([], [])).1 := by
  unfold calibrateMultiServerChannels
  rw [List.foldl_flatten, List.foldl_map]

/-- With duplicate-free per-client channel lists, the number of
occurrences of a channel name in the flattened walk is the number of
clients configured with it. -/
lemma flatten_count_eq_filter_length (ch : String) :
    ∀ (clients : List IrcClientConf),
      (∀ c ∈ clients, c.channels.Nodup) →
      ((clients.map IrcClientConf.channels).flatten).count ch
        = (clients.filter (fun c => c.channels.contains ch)).length := by
  intro clients
  induction clients with
  | nil => intro _; rfl
  | cons c t ih =>
    intro hnd
    have hc : c.channels.Nodup := hnd c (List.mem_cons_self c t)
    have ht : ∀ x ∈ t, x.channels.Nodup := fun x hx =>
      hnd x (List.mem_cons_of_mem c hx)
    simp only [List.map_cons, List.flatten_cons, List.count_append,
      List.filter_cons]
    rw [ih ht]
    by_cases hmem : ch ∈ c.channels
    · have h1 : c.channels.count ch = 1 := List.count_eq_one_of_mem hc hmem
      have h2 : c.channels.contains ch = true := List.elem_iff.mpr hmem
      rw [h1, h2]
      simp [Nat.add_comm]
    · have h1 : c.channels.count ch = 0 := List.count_eq_zero.mpr hmem
      have h2 : ¬ c.channels.contains ch = true := fun h =>
        hmem (List.elem_iff.mp h)
      rw [h1]
      simp only [h2]
      simp

/-- C7: with distinct server names and duplicate-free channel lists, a
channel name is marked ambiguous (multi-server) exactly when at least
two configured servers carry it, and the display name is
server-qualified exactly in that case. -/
theorem multiServerChannel_iff_and_display (clients : List IrcClientConf)
    (_hnames : (clients.map IrcClientConf.name).Nodup)
    (hchan : ∀ c ∈ clients, c.channels.Nodup) (ch server : String) :
    (ch ∈ calibrateMultiServerChannels clients ↔
      2 ≤ (clients.filter (fun c => c.channels.contains ch)).length) ∧
    (2 ≤ (clients.filter (fun c => c.channels.contains ch)).length →
      getChannelFullName (calibrateMultiServerChannels clients) server ch
        = server ++ " " ++ ch) ∧
    ((clients.filter (fun c => c.channels.contains ch)).length ≤ 1 →
      getChannelFullName (calibrateMultiServerChannels clients) server ch
        = ch) := by
  have hcnt := flatten_count_eq_filter_length ch clients hchan
  have hmem : ch ∈ calibrateMultiServerChannels clients ↔
      2 ≤ (clients.filter (fun c => c.channels.contains ch)).length := by
    rw [calibrateMultiServerChannels_eq_flatten,
      calibrateStep_foldl_mem ch _ [] []]
    constructor
    · rintro (hfalse | ⟨-, h2⟩)
      · exact absurd hfalse (List.not_mem_nil ch)
      · rw [List.count_nil, Nat.zero_add, hcnt] at h2
        exact h2
    · intro h
      have h2 : 2 ≤ ((clients.map IrcClientConf.channels).flatten).count ch := by
        rw [hcnt]
        exact h
      refine Or.inr ⟨List.count_pos_iff.mp (by omega), ?_⟩
      rw [List.count_nil, Nat.zero_add, hcnt]
      exact h
  refine ⟨hmem, ?_, ?_⟩
  · intro h
    unfold getChannelFullName
    rw [if_pos (List.elem_iff.mpr (hmem.mpr h))]
  · intro h
    unfold getChannelFullName
    rw [if_neg (fun hc => by
      have := hmem.mp (List.elem_iff.mp hc)
      omega)]

/-- Concrete check of `multiServerChannel_iff_and_display`: `#general`
on two servers is ambiguous and qualified, `#solo` on one is not. -/
theorem multiServerChannel_iff_and_display_witness :
    ("#general" ∈ calibrateMultiServerChannels
      [{ name := "alpha", channels := ["#general", "#solo"] },
       { name := "beta", channels := ["#general"] }]) ∧
    getChannelFullName (calibrateMultiServerChannels
      [{ name := "alpha", channels := ["#general", "#solo"] },
       { name := "beta", channels := ["#general"] }]) "alpha" "#general"
      = "alpha #general" ∧
    getChannelFullName (calibrateMultiServerChannels
      [{ name := "alpha", channels := ["#general", "#solo"] },
       { name := "beta", channels := ["#general"] }]) "alpha" "#solo"
      = "#solo" := by
  have h1 := multiServerChannel_iff_and_display
    [{ name := "alpha", channels := ["#general", "#solo"] },
     { name := "beta", channels := ["#general"] }]
    (by decide) (by decide) "#general" "alpha"
  have h2 := multiServerChannel_iff_and_display
    [{ name := "alpha", channels := ["#general", "#solo"] },
     { name := "beta", channels := ["#general"] }]
    (by decide) (by decide) "#solo" "alpha"
  exact ⟨h1.1.mpr (by decide), h1.2.1 (by decide), h2.2.2 (by decide)⟩


/-- An append that stays within capacity is a plain push. -/
lemma cacheItem_append_of_le {α : Type} (cap : Nat) (cache : List α) (d : α)
    (h : cache.length + 1 ≤ cap) : cacheItem cap cache d = cache ++ [d] := by
  unfold cacheItem
  rw [if_neg]
  simp only [List.length_append, List.length_singleton]
  omega

/-- On a channel with no cached lines, `cacheBunchableChannelEvent` is a
plain `cacheChannelEvent`. -/
lemma cacheBunchable_emptyCache (cfg : CacheConfig) (st : CachesState)
    (ch : String) (d : CacheLine)
    (hc : (st.channelCaches ch).getD [] = []) :
    cacheBunchableChannelEvent cfg st ch d = cacheChannelEvent cfg st ch d := by
  unfold cacheBunchableChannelEvent
  rw [hc]
  rfl

/-- When the single cached line has a bunchable type, the bunchable
append replaces it with a fresh two-member bunch carrying the superseded
line id in `prevIds`. -/
lemma cacheBunchable_bunchableTail (cfg : CacheConfig) (st : CachesState)
    (ch : String) (last d : CacheLine)
    (hc : st.channelCaches ch = some [last])
    (ht : BUNCHABLE_EVENT_TYPES.contains last.type = true) :
    (cacheBunchableChannelEvent cfg st ch d).channelCaches ch
      = some [CacheLine.bunch last.channel [last, d] last.time
          ((isJoinEvent d).toNat + (isJoinEvent last).toNat) st.uuidCounter
          ((isPartEvent d).toNat + (isPartEvent last).toNat)
          [last.lineId] last.server d.time] ∧
    (cacheBunchableChannelEvent cfg st ch d).uuidCounter
      = st.uuidCounter + 1 ∧
    (∀ x, x ≠ ch →
      (cacheBunchableChannelEvent cfg st ch d).channelCaches x
        = st.channelCaches x) := by
  unfold cacheBunchableChannelEvent
  rw [hc]
  simp only [Option.getD_some, List.getLast?_singleton, if_pos ht]
  set b := CacheLine.bunch last.channel [last, d] last.time
    ((isJoinEvent d).toNat + (isJoinEvent last).toNat) st.uuidCounter
    ((isPartEvent d).toNat + (isPartEvent last).toNat)
    [last.lineId] last.server d.time with hb
  set st' : CachesState := { st with uuidCounter := st.uuidCounter + 1 }
    with hst'
  have hframe := replaceLastCacheItem_frame cfg st' ch b
  have hc' : st'.channelCaches ch = some [last] := hc
  refine ⟨?_, ?_, ?_⟩
  · have := hframe.2.2.2.2.2.1 [last] hc' (by simp)
    simpa using this
  · exact hframe.2.2.2.1
  · intro x hx
    exact hframe.2.2.2.2.1 x hx

/-- When the single cached line is already an `"events"` bunch, the
bunchable append replaces it with a fresh bunch whose member list and
`prevIds` are extended and capped at `BUNCHED_EVENT_SIZE`. -/
lemma cacheBunchable_eventsTail (cfg : CacheConfig) (st : CachesState)
    (ch : String) (last d : CacheLine)
    (hc : st.channelCaches ch = some [last])
    (ht : last.type = "events") :
    (cacheBunchableChannelEvent cfg st ch d).channelCaches ch
      = some [CacheLine.bunch last.channel
          (if (last.events ++ [d]).length > cfg.bunchedEventSize then
            (last.events ++ [d]).drop
              ((last.events ++ [d]).length - cfg.bunchedEventSize)
          else last.events ++ [d])
          last.firstTime (last.joinCount + (isJoinEvent d).toNat)
          st.uuidCounter (last.partCount + (isPartEvent d).toNat)
          (if (last.prevIds ++ [last.lineId]).length > cfg.bunchedEventSize then
            (last.prevIds ++ [last.lineId]).drop
              ((last.prevIds ++ [last.lineId]).length - cfg.bunchedEventSize)
          else last.prevIds ++ [last.lineId])
          last.server d.time] ∧
    (cacheBunchableChannelEvent cfg st ch d).uuidCounter
      = st.uuidCounter + 1 ∧
    (∀ x, x ≠ ch →
      (cacheBunchableChannelEvent cfg st ch d).channelCaches x
        = st.channelCaches x) := by
  have hnotb : ¬ BUNCHABLE_EVENT_TYPES.contains last.type = true := by
    rw [ht]
    decide
  unfold cacheBunchableChannelEvent
  rw [hc]
  simp only [Option.getD_some, List.getLast?_singleton, if_neg hnotb,
    if_pos ht]
  set b := CacheLine.bunch last.channel
    (if (last.events ++ [d]).length > cfg.bunchedEventSize then
      (last.events ++ [d]).drop
        ((last.events ++ [d]).length - cfg.bunchedEventSize)
    else last.events ++ [d])
    last.firstTime (last.joinCount + (isJoinEvent d).toNat)
    st.uuidCounter (last.partCount + (isPartEvent d).toNat)
    (if (last.prevIds ++ [last.lineId]).length > cfg.bunchedEventSize then
      (last.prevIds ++ [last.lineId]).drop
        ((last.prevIds ++ [last.lineId]).length - cfg.bunchedEventSize)
    else last.prevIds ++ [last.lineId])
    last.server d.time with hb
  set st' : CachesState := { st with uuidCounter := st.uuidCounter + 1 }
    with hst'
  have hframe := replaceLastCacheItem_frame cfg st' ch b
  have hc' : st'.channelCaches ch = some [last] := hc
  refine ⟨?_, ?_, ?_⟩
  · have := hframe.2.2.2.2.2.1 [last] hc' (by simp)
    simpa using this
  · exact hframe.2.2.2.1
  · intro x hx
    exact hframe.2.2.2.2.1 x hx


/-- C3 counterexample: a join followed by a part on an empty channel
cache yields one `"events"` bunch with `joinCount = 1` and
`partCount = 1`, but its `prevIds` already holds the superseded join
record's id — it is not empty after the first bunch. -/
theorem bunch_first_prevIds_counterexample :
    (cacheBunchableChannelEvent cfgSample
      (cacheBunchableChannelEvent cfgSample initialCachesState "net/chan"
        (.ev joinSample)) "net/chan" (.ev partSample)).channelCaches
      "net/chan"
      = some [CacheLine.bunch "net/chan" [.ev joinSample, .ev partSample] 11 1
          1 1 [100] "net" 12] ∧
    ([100] : List Nat) ≠ [] :=
  ⟨rfl, by decide⟩

/-- C3 amended: the first bunch already carries the superseded join
record's id in `prevIds`; the second bunching step then appends the
first bunch's own id, so `prevIds` grows to
`[join id, first bunch id]`. -/
theorem bunch_first_and_second_prevIds (cfg : CacheConfig) (ch : String)
    (j p q : EventData) (hcap : 1 ≤ cfg.cacheLines)
    (hmax : 3 ≤ cfg.bunchedEventSize)
    (hj : j.type = "join") (hp : p.type = "part") (hq : q.type = "part") :
    (cacheBunchableChannelEvent cfg (cacheBunchableChannelEvent cfg
        initialCachesState ch (.ev j)) ch (.ev p)).channelCaches ch
      = some [CacheLine.bunch j.channel [.ev j, .ev p] j.time 1 1 1
          [j.lineId] j.server p.time] ∧
    (cacheBunchableChannelEvent cfg (cacheBunchableChannelEvent cfg
        (cacheBunchableChannelEvent cfg initialCachesState ch (.ev j)) ch
        (.ev p)) ch (.ev q)).channelCaches ch
      = some [CacheLine.bunch j.channel [.ev j, .ev p, .ev q] j.time 1 2 2
          [j.lineId, 1] j.server q.time] := by
  have hjoinj : isJoinEvent (.ev j) = true := by
    simp [isJoinEvent, CacheLine.type, hj]
  have hjoinp : isJoinEvent (.ev p) = false := by
    simp [isJoinEvent, CacheLine.type, hp]
  have hjoinq : isJoinEvent (.ev q) = false := by
    simp [isJoinEvent, CacheLine.type, hq]
  have hpartj : isPartEvent (.ev j) = false := by
    simp [isPartEvent, CacheLine.type, hj]
  have hpartp : isPartEvent (.ev p) = true := by
    simp [isPartEvent, CacheLine.type, hp]
  have hpartq : isPartEvent (.ev q) = true := by
    simp [isPartEvent, CacheLine.type, hq]
  -- first event: plain append to the empty cache
  have h1eq : cacheBunchableChannelEvent cfg initialCachesState ch (.ev j)
      = cacheChannelEvent cfg initialCachesState ch (.ev j) :=
    cacheBunchable_emptyCache cfg initialCachesState ch (.ev j) rfl
  have hframe1 := cacheChannelEvent_frame cfg initialCachesState ch (.ev j)
  have h1cc : (cacheBunchableChannelEvent cfg initialCachesState ch
      (.ev j)).channelCaches ch = some [.ev j] := by
    rw [h1eq, hframe1.2.2.2.2.2.2]
    have : cacheItem cfg.cacheLines
        ((initialCachesState.channelCaches ch).getD []) (CacheLine.ev j)
        = [CacheLine.ev j] := by
      rw [show (initialCachesState.channelCaches ch).getD []
          = ([] : List CacheLine) from rfl]
      exact cacheItem_append_of_le cfg.cacheLines [] (CacheLine.ev j)
        (by simpa using hcap)
    rw [this]
  have h1cnt : (cacheBunchableChannelEvent cfg initialCachesState ch
      (.ev j)).uuidCounter = 1 := by
    rw [h1eq, hframe1.2.2.2.1]
    rfl
  -- second event: the join tail is bunchable, a two-member bunch appears
  have hbt : BUNCHABLE_EVENT_TYPES.contains (CacheLine.ev j).type = true := by
    show BUNCHABLE_EVENT_TYPES.contains j.type = true
    rw [hj]
    decide
  have h2 := cacheBunchable_bunchableTail cfg
    (cacheBunchableChannelEvent cfg initialCachesState ch (.ev j)) ch
    (.ev j) (.ev p) h1cc hbt
  have h2cc : (cacheBunchableChannelEvent cfg (cacheBunchableChannelEvent cfg
      initialCachesState ch (.ev j)) ch (.ev p)).channelCaches ch
      = some [CacheLine.bunch j.channel [.ev j, .ev p] j.time 1 1 1
          [j.lineId] j.server p.time] := by
    rw [h2.1, h1cnt, hjoinp, hjoinj, hpartp, hpartj]
    rfl
  have h2cnt : (cacheBunchableChannelEvent cfg (cacheBunchableChannelEvent cfg
      initialCachesState ch (.ev j)) ch (.ev p)).uuidCounter = 2 := by
    rw [h2.2.1, h1cnt]
  refine ⟨h2cc, ?_⟩
  -- third event: the tail is an "events" bunch, members and prevIds grow
  have h3 := cacheBunchable_eventsTail cfg
    (cacheBunchableChannelEvent cfg (cacheBunchableChannelEvent cfg
      initialCachesState ch (.ev j)) ch (.ev p)) ch
    (CacheLine.bunch j.channel [.ev j, .ev p] j.time 1 1 1
      [j.lineId] j.server p.time) (.ev q) h2cc rfl
  rw [h3.1, h2cnt, hjoinq, hpartq]
  have hev : ¬ ((CacheLine.bunch j.channel [.ev j, .ev p] j.time 1 1 1
      [j.lineId] j.server p.time).events ++ [CacheLine.ev q]).length
        > cfg.bunchedEventSize := by
    show ¬ ([CacheLine.ev j, CacheLine.ev p] ++ [CacheLine.ev q]).length
      > cfg.bunchedEventSize
    simp only [List.length_append, List.length_cons, List.length_singleton,
      List.length_nil]
    omega
  have hpv : ¬ (((CacheLine.bunch j.channel [.ev j, .ev p] j.time 1 1 1
      [j.lineId] j.server p.time).prevIds ++
        [(CacheLine.bunch j.channel [.ev j, .ev p] j.time 1 1 1
          [j.lineId] j.server p.time).lineId]).length
        > cfg.bunchedEventSize) := by
    show ¬ ([j.lineId] ++ [1]).length > cfg.bunchedEventSize
    simp only [List.length_append, List.length_singleton]
    omega
  rw [if_neg hev, if_neg hpv]
  rfl

/-- Concrete check of `bunch_first_and_second_prevIds` on sample join
and part events. -/
theorem bunch_first_and_second_prevIds_witness :
    (cacheBunchableChannelEvent cfgSample (cacheBunchableChannelEvent
        cfgSample initialCachesState "net/chan" (.ev joinSample)) "net/chan"
        (.ev partSample)).channelCaches "net/chan"
      = some [CacheLine.bunch "net/chan" [.ev joinSample, .ev partSample] 11 1
          1 1 [100] "net" 12] ∧
    (cacheBunchableChannelEvent cfgSample (cacheBunchableChannelEvent
        cfgSample (cacheBunchableChannelEvent cfgSample initialCachesState
        "net/chan" (.ev joinSample)) "net/chan" (.ev partSample)) "net/chan"
        (.ev { partSample with time := 13, lineId := 102 })).channelCaches
        "net/chan"
      = some [CacheLine.bunch "net/chan" [.ev joinSample, .ev partSample,
          .ev { partSample with time := 13, lineId := 102 }] 11 1 2 2
          [100, 1] "net" 13] := by
  have h := bunch_first_and_second_prevIds cfgSample "net/chan" joinSample
    partSample { partSample with time := 13, lineId := 102 }
    (by decide) (by decide) rfl rfl rfl
  exact h


/-- Appending to a most-recent-`max` suffix and re-capping lands on the
most-recent-`max` suffix of the extended list (the cap branch of the
bunch extension). -/
lemma capAppend_drop_step {α : Type} (max : Nat) (l : List α) (a : α) :
    (if (l.drop (l.length - max) ++ [a]).length > max then
      (l.drop (l.length - max) ++ [a]).drop
        ((l.drop (l.length - max) ++ [a]).length - max)
    else l.drop (l.length - max) ++ [a])
    = (l ++ [a]).drop (l.length + 1 - max) := by
  have hdlen : (l.drop (l.length - max)).length = l.length - (l.length - max) :=
    List.length_drop _ _
  by_cases hle : l.length + 1 ≤ max
  · have h0 : l.length - max = 0 := by omega
    have h1 : l.length + 1 - max = 0 := by omega
    rw [h0, h1, List.drop_zero, List.drop_zero, if_neg]
    simp only [List.length_append, List.length_singleton]
    omega
  · have hgt : (l.drop (l.length - max) ++ [a]).length > max := by
      simp only [List.length_append, List.length_singleton, hdlen]
      omega
    rw [if_pos hgt]
    have hsplit : l.drop (l.length - max) ++ [a]
        = (l ++ [a]).drop (l.length - max) :=
      (List.drop_append_of_le_length (by omega)).symm
    rw [hsplit, List.drop_drop]
    congr 1
    simp only [List.length_drop, List.length_append, List.length_singleton]
    omega

/-- Length of a capped append. -/
lemma capAppend_length {α : Type} (max : Nat) (l : List α) (a : α)
    (h : l.length ≤ max) :
    (if (l ++ [a]).length > max then
      (l ++ [a]).drop ((l ++ [a]).length - max)
    else l ++ [a]).length = min (l.length + 1) max := by
  by_cases hgt : (l ++ [a]).length > max
  · rw [if_pos hgt, List.length_drop]
    simp only [List.length_append, List.length_singleton]
    omega
  · rw [if_neg hgt]
    simp only [List.length_append, List.length_singleton]
    simp only [List.length_append, List.length_singleton] at hgt
    omega

/-- The bunch-extension cap over mapped events, in the exact shape the
step lemma produces. -/
lemma events_cap_eq (max : Nat) (es : List EventData) (a : EventData) :
    (if ((es.map CacheLine.ev).drop (es.length - max)
        ++ [CacheLine.ev a]).length > max then
      ((es.map CacheLine.ev).drop (es.length - max)
        ++ [CacheLine.ev a]).drop
        (((es.map CacheLine.ev).drop (es.length - max)
          ++ [CacheLine.ev a]).length - max)
    else (es.map CacheLine.ev).drop (es.length - max) ++ [CacheLine.ev a])
    = ((es ++ [a]).map CacheLine.ev).drop ((es ++ [a]).length - max) := by
  have h := capAppend_drop_step max (es.map CacheLine.ev) (CacheLine.ev a)
  rw [List.length_map] at h
  rw [h, List.map_append]
  simp

/-- Invariant of the bunchable-append run: from the empty cache, two or
more bunchable events leave exactly one `"events"` bunch whose member
list is the most recent `BUNCHED_EVENT_SIZE` suffix of the appended
events and whose `prevIds` length is the capped number of superseded
records. -/
lemma bunch_run_invariant (cfg : CacheConfig) (ch : String)
    (hcap : 1 ≤ cfg.cacheLines) (hmax : 2 ≤ cfg.bunchedEventSize) :
    ∀ es : List EventData, 2 ≤ es.length →
      (∀ e ∈ es, BUNCHABLE_EVENT_TYPES.contains e.type = true) →
      ∃ (c0 srv : String) (ft jc id pc t : Nat) (pids : List Nat),
        (es.foldl (fun st e => cacheBunchableChannelEvent cfg st ch (.ev e))
          initialCachesState).channelCaches ch
          = some [CacheLine.bunch c0
              ((es.map CacheLine.ev).drop (es.length - cfg.bunchedEventSize))
              ft jc id pc pids srv t] ∧
        pids.length = min (es.length - 1) cfg.bunchedEventSize := by
  intro es
  induction es using List.reverseRecOn with
  | nil =>
    intro hlen _
    simp at hlen
  | append_singleton es a ih =>
    intro hlen hty
    rcases es with _ | ⟨e1, es'⟩
    · simp at hlen
    · rcases es' with _ | ⟨e2, es''⟩
      · -- exactly two events: the first bunch is created
        have h1eq := cacheBunchable_emptyCache cfg initialCachesState ch
          (.ev e1) rfl
        have hframe1 := cacheChannelEvent_frame cfg initialCachesState ch
          (.ev e1)
        have h1cc : (cacheBunchableChannelEvent cfg initialCachesState ch
            (.ev e1)).channelCaches ch = some [.ev e1] := by
          rw [h1eq, hframe1.2.2.2.2.2.2]
          have : cacheItem cfg.cacheLines
              ((initialCachesState.channelCaches ch).getD [])
              (CacheLine.ev e1) = [CacheLine.ev e1] := by
            rw [show (initialCachesState.channelCaches ch).getD []
                = ([] : List CacheLine) from rfl]
            exact cacheItem_append_of_le cfg.cacheLines [] (CacheLine.ev e1)
              (by simpa using hcap)
          rw [this]
        have hbt : BUNCHABLE_EVENT_TYPES.contains (CacheLine.ev e1).type
            = true := by
          show BUNCHABLE_EVENT_TYPES.contains e1.type = true
          exact hty e1 (by simp)
        have h2 := cacheBunchable_bunchableTail cfg
          (cacheBunchableChannelEvent cfg initialCachesState ch (.ev e1)) ch
          (.ev e1) (.ev a) h1cc hbt
        refine ⟨e1.channel, e1.server, e1.time,
          (isJoinEvent (CacheLine.ev a)).toNat
            + (isJoinEvent (CacheLine.ev e1)).toNat,
          (cacheBunchableChannelEvent cfg initialCachesState ch
            (.ev e1)).uuidCounter,
          (isPartEvent (CacheLine.ev a)).toNat
            + (isPartEvent (CacheLine.ev e1)).toNat,
          a.time, [e1.lineId], ?_, ?_⟩
        · show (cacheBunchableChannelEvent cfg (cacheBunchableChannelEvent cfg
            initialCachesState ch (.ev e1)) ch (.ev a)).channelCaches ch = _
          rw [h2.1]
          have hdrop : (([e1] ++ [a]).map CacheLine.ev).drop
              (([e1] ++ [a]).length - cfg.bunchedEventSize)
              = [CacheLine.ev e1, CacheLine.ev a] := by
            have h0 : ([e1] ++ [a]).length - cfg.bunchedEventSize = 0 := by
              simp only [List.length_append, List.length_singleton]
              omega
            rw [h0, List.drop_zero]
            rfl
          rw [hdrop]
          rfl
        · simp only [List.length_append, List.length_singleton,
            List.length_cons, List.length_nil]
          omega
      · -- at least three events: the invariant extends through the bunch
        have hlen2 : 2 ≤ (e1 :: e2 :: es'').length := by
          simp only [List.length_cons]
          omega
        have htyes : ∀ e ∈ (e1 :: e2 :: es''),
            BUNCHABLE_EVENT_TYPES.contains e.type = true :=
          fun e he => hty e (List.mem_append_left _ he)
        obtain ⟨c0, srv, ft, jc, id, pc, t, pids, hcc, hpids⟩ := ih hlen2 htyes
        rw [List.foldl_append, List.foldl_cons, List.foldl_nil]
        set es := e1 :: e2 :: es'' with hes
        have h3 := cacheBunchable_eventsTail cfg
          (es.foldl (fun st e => cacheBunchableChannelEvent cfg st ch (.ev e))
            initialCachesState) ch
          (CacheLine.bunch c0
            ((es.map CacheLine.ev).drop (es.length - cfg.bunchedEventSize))
            ft jc id pc pids srv t) (.ev a) hcc rfl
        refine ⟨c0, srv, ft, jc + (isJoinEvent (CacheLine.ev a)).toNat,
          (es.foldl (fun st e => cacheBunchableChannelEvent cfg st ch (.ev e))
            initialCachesState).uuidCounter,
          pc + (isPartEvent (CacheLine.ev a)).toNat, a.time,
          (if (pids ++ [id]).length > cfg.bunchedEventSize then
            (pids ++ [id]).drop
              ((pids ++ [id]).length - cfg.bunchedEventSize)
          else pids ++ [id]), ?_, ?_⟩
        · rw [h3.1]
          simp only [CacheLine.events, CacheLine.channel, CacheLine.prevIds,
            CacheLine.lineId, CacheLine.firstTime, CacheLine.joinCount,
            CacheLine.partCount, CacheLine.server]
          rw [events_cap_eq]
          rfl
        · have hple : pids.length ≤ cfg.bunchedEventSize := by omega
          rw [capAppend_length cfg.bunchedEventSize pids id hple, hpids]
          have hlen3 : es.length = es''.length + 2 := by
            rw [hes]
            simp
          simp only [hlen3, List.length_append, List.length_cons,
            List.length_singleton, List.length_nil]
          omega

/-- C4: appending more than `BUNCHED_EVENT_SIZE` consecutive bunchable
events to an initially empty channel leaves one bunch whose member list
is exactly the most recent `BUNCHED_EVENT_SIZE` events (oldest members
dropped) and whose `prevIds` is capped at the same maximum. -/
theorem bunch_member_list_capped (cfg : CacheConfig) (ch : String)
    (es : List EventData) (hcap : 1 ≤ cfg.cacheLines)
    (hmax : 2 ≤ cfg.bunchedEventSize)
    (hlen : cfg.bunchedEventSize < es.length)
    (hty : ∀ e ∈ es, BUNCHABLE_EVENT_TYPES.contains e.type = true) :
    ∃ (c0 srv : String) (ft jc id pc t : Nat) (pids : List Nat)
        (members : List CacheLine),
      (es.foldl (fun st e => cacheBunchableChannelEvent cfg st ch (.ev e))
        initialCachesState).channelCaches ch
        = some [CacheLine.bunch c0 members ft jc id pc pids srv t] ∧
      members = (es.map CacheLine.ev).drop (es.length - cfg.bunchedEventSize) ∧
      members.length = cfg.bunchedEventSize ∧
      pids.length = cfg.bunchedEventSize := by
  obtain ⟨c0, srv, ft, jc, id, pc, t, pids, hcc, hpids⟩ :=
    bunch_run_invariant cfg ch hcap hmax es (by omega) hty
  refine ⟨c0, srv, ft, jc, id, pc, t, pids, _, hcc, rfl, ?_, ?_⟩
  · rw [List.length_drop, List.length_map]
    omega
  · rw [hpids]
    omega

/-- Concrete check of `bunch_member_list_capped`: five bunchable events
with a cap of two leave a bunch with exactly the last two members. -/
theorem bunch_member_list_capped_witness :
    ∃ (c0 srv : String) (ft jc id pc t : Nat) (pids : List Nat)
        (members : List CacheLine),
      (([joinSample, partSample,
          { partSample with time := 13, lineId := 102 },
          { partSample with time := 14, lineId := 103 },
          { joinSample with time := 15, lineId := 104 }] :
            List EventData).foldl
        (fun st e => cacheBunchableChannelEvent
          { cfgSample with bunchedEventSize := 2 } st "net/chan" (.ev e))
        initialCachesState).channelCaches "net/chan"
        = some [CacheLine.bunch c0 members ft jc id pc pids srv t] ∧
      members = [.ev { partSample with time := 14, lineId := 103 },
        .ev { joinSample with time := 15, lineId := 104 }] ∧
      members.length = 2 ∧ pids.length = 2 := by
  obtain ⟨c0, srv, ft, jc, id, pc, t, pids, members, hcc, hm, hml, hpl⟩ :=
    bunch_member_list_capped { cfgSample with bunchedEventSize := 2 }
      "net/chan"
      [joinSample, partSample,
        { partSample with time := 13, lineId := 102 },
        { partSample with time := 14, lineId := 103 },
        { joinSample with time := 15, lineId := 104 }]
      (by decide) (by decide) (by decide) (by decide)
  refine ⟨c0, srv, ft, jc, id, pc, t, pids, members, hcc, ?_, hml, hpl⟩
  rw [hm]
  rfl


/-- The observable effect of `addToCurrentHighlightContext` on the
channel's open contexts and on the (aliased) `"highlights"` category
cache. -/
lemma addToCurrentHighlightContext_effect (cfg : CacheConfig)
    (st : CachesState) (channel : String) (msg : CacheLine) :
    (addToCurrentHighlightContext cfg st channel msg).currentHighlightContexts
        channel
      = (if ((st.currentHighlightContexts channel).getD []).isEmpty then
          st.currentHighlightContexts channel
        else some ((((st.currentHighlightContexts channel).getD []).map
            (pushContextMessage msg)).filter
            (fun h => h.contextMessages.length
              < 2 * cfg.contextCacheLines))) ∧
    (addToCurrentHighlightContext cfg st channel msg).categoryCaches
        "highlights"
      = (if ((st.currentHighlightContexts channel).getD []).isEmpty then
          st.categoryCaches "highlights"
        else some (((st.categoryCaches "highlights").getD []).map
            (fun h =>
              if ((st.currentHighlightContexts channel).getD []).any
                  (fun g => g.msg.lineId == h.msg.lineId) then
                pushContextMessage msg h
              else h))) := by
  unfold addToCurrentHighlightContext
  by_cases he : ((st.currentHighlightContexts channel).getD []).isEmpty
  · simp [he]
  · rw [if_neg he, if_neg he, if_neg he]
    constructor
    · simp [updateMap]
    · simp [updateMap]

/-- The observable effect of `cacheCategoryMessage` on the open contexts
when caching a highlight: a new context is opened on the message's
channel. -/
lemma cacheCategoryMessage_highlights_effect (cfg : CacheConfig)
    (st : CachesState) (msg : CatMsg) (hid : msg.msg.lineId ≠ 0) :
    (cacheCategoryMessage cfg st "highlights" msg).currentHighlightContexts
        msg.msg.channel
      = some (((st.currentHighlightContexts msg.msg.channel).getD [])
          ++ [msg]) := by
  unfold cacheCategoryMessage
  rw [if_pos ⟨rfl, hid⟩]
  simp [createCurrentHighlightContext, updateMap]

/-- The operation `cacheCategoryMessage` on a category other than `"highlights"` never
touches the open contexts. -/
lemma cacheCategoryMessage_contexts_of_ne (cfg : CacheConfig)
    (st : CachesState) (categoryName : String) (msg : CatMsg)
    (h : categoryName ≠ "highlights") :
    (cacheCategoryMessage cfg st categoryName msg).currentHighlightContexts
      = st.currentHighlightContexts := by
  unfold cacheCategoryMessage
  rw [if_neg (fun hc => h hc.1)]

/-- C5 counterexample: with a freshly opened (still far from full)
highlight context on the channel, a subsequent channel record cached
through `cacheChannelEvent` (here a join event) lands in the channel
cache but is not appended to the open context. -/
theorem highlightContext_misses_channel_events_counterexample :
    (cacheChannelEvent cfgSample stH "net/chan" (.ev joinSample)).channelCaches
        "net/chan"
      = some [.msgLine mH, .ev joinSample] ∧
    (cacheChannelEvent cfgSample stH "net/chan"
        (.ev joinSample)).currentHighlightContexts "net/chan"
      = some [{ msg := mH, contextMessages := [] }] ∧
    (0 : Nat) < 2 * cfgSample.contextCacheLines :=
  ⟨rfl, rfl, by decide⟩

/-- C5 amended: records cached through `cacheChannelEvent` (plain
channel events such as joins) never touch the open highlight contexts;
a record cached through `cacheMessage` is pushed onto every open context
of its channel, a context reaching `2 * CONTEXT_CACHE_LINES` records is
closed by that push, every surviving open context stays strictly below
that bound, a highlighted record opens a new context seeded with the
most recent `CONTEXT_CACHE_LINES` channel records (fewer when the cache
is shorter, never the anchor itself), and the stored `"highlights"`
entries receive the push only while their anchor is still open. -/
theorem highlightContext_open_growth_finalize (cfg : CacheConfig)
    (colorOf : String → Nat) (st : CachesState) (ch srv user sym : String)
    (t : Nat) (ty msgText : String) (tags : List (String × String))
    (rel : Nat) (hls : List String) (hcnt : st.uuidCounter ≠ 0) :
    (∀ d : CacheLine,
      (cacheChannelEvent cfg st ch d).currentHighlightContexts
        = st.currentHighlightContexts) ∧
    ((cacheMessage cfg colorOf st ch srv user sym t ty msgText tags rel
        hls).currentHighlightContexts ch).getD []
      = (((st.currentHighlightContexts ch).getD []).map
          (pushContextMessage (.msgLine (builtMsg colorOf st ch srv user sym t ty msgText tags rel hls)))).filter
          (fun h => h.contextMessages.length < 2 * cfg.contextCacheLines)
        ++ (if hls.isEmpty then []
          else [{ msg := (builtMsg colorOf st ch srv user sym t ty msgText tags rel hls),
                  contextMessages := contextSeed cfg st ch }]) ∧
    (contextSeed cfg st ch).length
      = min cfg.contextCacheLines ((st.channelCaches ch).getD []).length ∧
    ((∀ l ∈ (st.channelCaches ch).getD [], l.lineId ≠ st.uuidCounter) →
      ∀ l ∈ contextSeed cfg st ch, l.lineId ≠ ((builtMsg colorOf st ch srv user sym t ty msgText tags rel hls)).lineId) ∧
    (∀ g ∈ (((st.currentHighlightContexts ch).getD []).map
        (pushContextMessage (.msgLine (builtMsg colorOf st ch srv user sym t ty msgText tags rel hls)))).filter
        (fun h => h.contextMessages.length < 2 * cfg.contextCacheLines),
      g.contextMessages.length < 2 * cfg.contextCacheLines) ∧
    ((cacheMessage cfg colorOf st ch srv user sym t ty msgText tags rel
        hls).categoryCaches "highlights").getD []
      = (if hls.isEmpty then
          ((st.categoryCaches "highlights").getD []).map
            (fun h =>
              if ((st.currentHighlightContexts ch).getD []).any
                  (fun g => g.msg.lineId == h.msg.lineId) then
                pushContextMessage (.msgLine (builtMsg colorOf st ch srv user sym t ty msgText tags rel hls)) h
              else h)
        else cacheItem cfg.cacheLines
          (((st.categoryCaches "highlights").getD []).map
            (fun h =>
              if ((st.currentHighlightContexts ch).getD []).any
                  (fun g => g.msg.lineId == h.msg.lineId) then
                pushContextMessage (.msgLine (builtMsg colorOf st ch srv user sym t ty msgText tags rel hls)) h
              else h))
          { msg := (builtMsg colorOf st ch srv user sym t ty msgText tags rel hls), contextMessages := contextSeed cfg st ch }) := by
  have hmain :
      ((cacheMessage cfg colorOf st ch srv user sym t ty msgText tags rel
          hls).currentHighlightContexts ch).getD []
        = (((st.currentHighlightContexts ch).getD []).map
            (pushContextMessage (.msgLine (builtMsg colorOf st ch srv user sym t ty msgText tags rel hls)))).filter
            (fun h => h.contextMessages.length < 2 * cfg.contextCacheLines)
          ++ (if hls.isEmpty then []
            else [{ msg := (builtMsg colorOf st ch srv user sym t ty msgText tags rel hls),
                    contextMessages := contextSeed cfg st ch }]) ∧
      ((cacheMessage cfg colorOf st ch srv user sym t ty msgText tags rel
          hls).categoryCaches "highlights").getD []
        = (if hls.isEmpty then
            ((st.categoryCaches "highlights").getD []).map
            (fun h =>
              if ((st.currentHighlightContexts ch).getD []).any
                  (fun g => g.msg.lineId == h.msg.lineId) then
                pushContextMessage (.msgLine (builtMsg colorOf st ch srv user sym t ty msgText tags rel hls)) h
              else h)
          else cacheItem cfg.cacheLines
            (((st.categoryCaches "highlights").getD []).map
            (fun h =>
              if ((st.currentHighlightContexts ch).getD []).any
                  (fun g => g.msg.lineId == h.msg.lineId) then
                pushContextMessage (.msgLine (builtMsg colorOf st ch srv user sym t ty msgText tags rel hls)) h
              else h))
            { msg := (builtMsg colorOf st ch srv user sym t ty msgText tags rel hls), contextMessages := contextSeed cfg st ch }) := by
    simp only [cacheMessage]
    set M := (builtMsg colorOf st ch srv user sym t ty msgText tags rel hls) with hM
    set ST1 : CachesState := { st with uuidCounter := st.uuidCounter + 1 }
      with hST1
    set ST2 := cacheChannelEvent cfg ST1 ch (.msgLine M) with hST2
    set A := addToCurrentHighlightContext cfg ST2 ch (.msgLine M) with hA
    have hch := cacheChannelEvent_frame cfg ST1 ch (.msgLine M)
    have hctx2 : ST2.currentHighlightContexts
        = st.currentHighlightContexts := hch.2.2.1.trans rfl
    have hcat2 : ST2.categoryCaches = st.categoryCaches :=
      hch.2.1.trans rfl
    have heff := addToCurrentHighlightContext_effect cfg ST2 ch (.msgLine M)
    have hActx : A.currentHighlightContexts ch
        = (if ((st.currentHighlightContexts ch).getD []).isEmpty then
            st.currentHighlightContexts ch
          else some ((((st.currentHighlightContexts ch).getD []).map
              (pushContextMessage (.msgLine M))).filter
              (fun h => h.contextMessages.length
                < 2 * cfg.contextCacheLines))) := by
      rw [hA, heff.1, hctx2]
    have hAhl : A.categoryCaches "highlights"
        = (if ((st.currentHighlightContexts ch).getD []).isEmpty then
            st.categoryCaches "highlights"
          else some (((st.categoryCaches "highlights").getD []).map
              (fun h =>
                if ((st.currentHighlightContexts ch).getD []).any
                    (fun g => g.msg.lineId == h.msg.lineId) then
                  pushContextMessage (.msgLine M) h
                else h))) := by
      rw [hA, heff.2, hctx2, hcat2]
    set B := (if RELATIONSHIP_FRIEND ≤ rel then
        cacheCategoryMessage cfg (cacheUserMessage cfg A user M) "allfriends"
          { msg := M, contextMessages := [] }
      else A) with hB
    have hBctx : B.currentHighlightContexts
        = A.currentHighlightContexts := by
      rw [hB]
      by_cases hre : RELATIONSHIP_FRIEND ≤ rel
      · rw [if_pos hre,
          cacheCategoryMessage_contexts_of_ne cfg _ "allfriends" _
            (by decide)]
        exact (cacheUserMessage_frame cfg A user M).2.2.1
      · rw [if_neg hre]
    have hBhl : B.categoryCaches "highlights"
        = A.categoryCaches "highlights" := by
      rw [hB]
      by_cases hre : RELATIONSHIP_FRIEND ≤ rel
      · rw [if_pos hre,
          (cacheCategoryMessage_frame cfg _ "allfriends" _).2.2.2.1
            "highlights" (by decide),
          (cacheUserMessage_frame cfg A user M).2.1]
      · rw [if_neg hre]
    by_cases hhls : hls.isEmpty
    · -- no highlight: the final branch is skipped
      rw [if_neg (by simp [hhls]), if_pos hhls, if_pos hhls]
      constructor
      · rw [List.append_nil, hBctx, hActx]
        by_cases hopen : ((st.currentHighlightContexts ch).getD []).isEmpty
        · have hnil : (st.currentHighlightContexts ch).getD [] = [] :=
            List.isEmpty_iff.mp hopen
          rw [if_pos hopen, hnil]
          rfl
        · rw [if_neg hopen]
          rfl
      · rw [hBhl, hAhl]
        by_cases hopen : ((st.currentHighlightContexts ch).getD []).isEmpty
        · have hnil : (st.currentHighlightContexts ch).getD [] = [] :=
            List.isEmpty_iff.mp hopen
          rw [if_pos hopen, hnil]
          simp
        · rw [if_neg hopen]
          rfl
    · -- highlight: an open context is created and the clone is cached
      rw [if_pos (by simp [hhls]), if_neg hhls, if_neg hhls]
      have hid : ({ msg := M, contextMessages := contextSeed cfg st ch }
          : CatMsg).msg.lineId ≠ 0 := hcnt
      constructor
      · have heffH := cacheCategoryMessage_highlights_effect cfg B
          { msg := M, contextMessages := contextSeed cfg st ch } hid
        have heffH' : (cacheCategoryMessage cfg B "highlights"
            { msg := M, contextMessages := contextSeed cfg st ch
              }).currentHighlightContexts ch
            = some (((B.currentHighlightContexts ch).getD [])
              ++ [{ msg := M, contextMessages := contextSeed cfg st ch }]) :=
          heffH
        rw [heffH', hBctx, hActx]
        by_cases hopen : ((st.currentHighlightContexts ch).getD []).isEmpty
        · have hnil : (st.currentHighlightContexts ch).getD [] = [] :=
            List.isEmpty_iff.mp hopen
          rw [if_pos hopen, hnil]
          rfl
        · rw [if_neg hopen]
          rfl
      · have hcat := (cacheCategoryMessage_frame cfg B "highlights"
          { msg := M, contextMessages := contextSeed cfg st ch }).2.2.2.2
        rw [hcat, hBhl, hAhl]
        by_cases hopen : ((st.currentHighlightContexts ch).getD []).isEmpty
        · have hnil : (st.currentHighlightContexts ch).getD [] = [] :=
            List.isEmpty_iff.mp hopen
          rw [if_pos hopen, hnil]
          simp
        · rw [if_neg hopen]
          rfl
  refine ⟨fun d => (cacheChannelEvent_frame cfg st ch d).2.2.1, hmain.1,
    ?_, ?_, ?_, hmain.2⟩
  · simp only [contextSeed, List.length_drop]
    omega
  · intro hfresh l hl
    exact hfresh l (List.mem_of_mem_drop hl)
  · intro g hg
    simpa using (List.mem_filter.mp hg).2

/-- Concrete check of `highlightContext_open_growth_finalize`: with one
open context, a further (non-highlight) message is appended to it, and
the context entry in the highlights cache receives the same push. -/
theorem highlightContext_open_growth_finalize_witness :
    ((cacheMessage cfgSample (fun _ => 0) stH "net/chan" "net" "zed" "" 2
        "msg" "more" [] 0 []).currentHighlightContexts "net/chan").getD []
      = [{ msg := mH, contextMessages := [CacheLine.msgLine mZ] }] ∧
    ((cacheMessage cfgSample (fun _ => 0) stH "net/chan" "net" "zed" "" 2
        "msg" "more" [] 0 []).categoryCaches "highlights").getD []
      = [{ msg := mH, contextMessages := [CacheLine.msgLine mZ] }] := by
  have h := highlightContext_open_growth_finalize cfgSample (fun _ => 0) stH
    "net/chan" "net" "zed" "" 2 "msg" "more" [] 0 [] (by decide)
  constructor
  · rw [h.2.1]
    rfl
  · rw [h.2.2.2.2.2]
    rfl


end Pyramid
